import Mathlib

/-!
# Verification of the QuickScope flow execution engine

Shallow embedding of the core flow-engine code of the repository:

* `src/engine/flow_runner.py` — `TemplateRenderer._get_nested_value` (path read),
  `TemplateRenderer.render`, `SlotWriter.write` (path write),
  `StageAdvancer._parse_yes_no`, `StageAdvancer.get_next_stage`,
  `StageAdvancer._check_gate_criteria`;
* `src/nodes/interview_nodes.py` — `_should_clarify`, `ingest_user_answer_node`,
  `auto_advance_node`, `_detect_loop`, `render_prompt_node`.

Python's JSON-like data (dicts / lists / scalars) is modelled by the inductive
type `Value`; dicts are association lists with unique keys (Python preserves
insertion order, updates in place).  Python's `None` is the constructor
`Value.vnull`; functions that can raise an uncaught exception return `Option`
(`none` = exception), and Python code paths that return early with the data
unchanged are modelled explicitly.
-/

namespace QuickScope

/-! ## Python-style string helpers (ASCII semantics, which is all the engine uses) -/

/-- `str.split(sep)` for a one-character separator: splits at *every*
occurrence, keeping empty pieces (`"".split "." = [""]`, `"a..b" = ["a","","b"]`). -/
def splitChar (sep : Char) : List Char → List (List Char)
  | [] => [[]]
  | c :: rest =>
    let r := splitChar sep rest
    if c = sep then [] :: r
    else
      match r with
      | h :: t => (c :: h) :: t
      | [] => [[c]]

/-- Characters Python `str.strip()` removes. -/
def isPySpace (c : Char) : Bool :=
  c = ' ' || c = '\t' || c = '\n' || c = '\r' || c = '\x0b' || c = '\x0c'

/-- Python `str.strip()` (whitespace on both ends). -/
def pyStrip (s : String) : String :=
  ⟨((s.toList.dropWhile isPySpace).reverse.dropWhile isPySpace).reverse⟩

/-- Python `str.rstrip(c)` for a single character: drop every trailing `c`. -/
def pyRstrip (c : Char) (s : String) : String :=
  ⟨(s.toList.reverse.dropWhile (· = c)).reverse⟩

/-- Python substring test `needle in hay` on strings (`"" in s` is `True`). -/
def subStr (needle hay : String) : Bool :=
  go needle.toList hay.toList
where
  go (n : List Char) : List Char → Bool
    | [] => n.isEmpty
    | c :: rest => n.isPrefixOf (c :: rest) || go n rest

/-- `'[' ∈ part` etc. -/
def strContains (s : String) (c : Char) : Bool :=
  s.toList.contains c

def isAsciiDigit (c : Char) : Bool := '0' ≤ c && c ≤ '9'

def isLowerAlnum (c : Char) : Bool :=
  ('a' ≤ c && c ≤ 'z') || isAsciiDigit c

/-- Decimal digits to a natural number (`none` if empty or a non-digit occurs). -/
def natDigits (cs : List Char) : Option Nat :=
  if cs ≠ [] && cs.all isAsciiDigit then
    some (cs.foldl (fun acc c => acc * 10 + (c.toNat - '0'.toNat)) 0)
  else none

/-- Python `int(s)`: strip whitespace, optional sign, decimal digits; `none`
models the `ValueError`.  (Underscore digit grouping is not modelled; the
engine's flow paths never use it.) -/
def pyInt (s : String) : Option Int :=
  match (pyStrip s).toList with
  | '+' :: ds => (natDigits ds).map Int.ofNat
  | '-' :: ds => (natDigits ds).map (fun n => -(Int.ofNat n))
  | ds => (natDigits ds).map Int.ofNat

/-- Lowercase + tokenize as `_parse_yes_no` does: lowercases, replaces runs of
non-`[a-z0-9]` characters by separators and splits — i.e. the maximal runs of
lowercase-alphanumeric characters. -/
def alnumTokens (s : String) : List String :=
  go (s.toList.map Char.toLower) []
where
  go : List Char → List Char → List String
    | [], acc => if acc.isEmpty then [] else [⟨acc.reverse⟩]
    | c :: rest, acc =>
      if isLowerAlnum c then go rest (c :: acc)
      else if acc.isEmpty then go rest []
      else (⟨acc.reverse⟩ : String) :: go rest []

/-! ## The slot data model -/

/-- Python JSON-ish runtime values.  `vnull` is Python `None`.  Dicts are
insertion-ordered association lists with unique string keys (the engine never
builds an int-keyed dict). -/
inductive Value where
  | vnull : Value
  | vbool : Bool → Value
  | vint : Int → Value
  | vstr : String → Value
  | vlist : List Value → Value
  | vdict : List (String × Value) → Value

mutual

def decEqV : (a b : Value) → Decidable (a = b)
  | .vnull, .vnull => isTrue rfl
  | .vnull, .vbool _ => isFalse (fun h => by cases h)
  | .vnull, .vint _ => isFalse (fun h => by cases h)
  | .vnull, .vstr _ => isFalse (fun h => by cases h)
  | .vnull, .vlist _ => isFalse (fun h => by cases h)
  | .vnull, .vdict _ => isFalse (fun h => by cases h)
  | .vbool _, .vnull => isFalse (fun h => by cases h)
  | .vbool x, .vbool y =>
    match decEq x y with
    | isTrue h => isTrue (h ▸ rfl)
    | isFalse h => isFalse (fun hh => by cases hh; exact h rfl)
  | .vbool _, .vint _ => isFalse (fun h => by cases h)
  | .vbool _, .vstr _ => isFalse (fun h => by cases h)
  | .vbool _, .vlist _ => isFalse (fun h => by cases h)
  | .vbool _, .vdict _ => isFalse (fun h => by cases h)
  | .vint _, .vnull => isFalse (fun h => by cases h)
  | .vint _, .vbool _ => isFalse (fun h => by cases h)
  | .vint x, .vint y =>
    match decEq x y with
    | isTrue h => isTrue (h ▸ rfl)
    | isFalse h => isFalse (fun hh => by cases hh; exact h rfl)
  | .vint _, .vstr _ => isFalse (fun h => by cases h)
  | .vint _, .vlist _ => isFalse (fun h => by cases h)
  | .vint _, .vdict _ => isFalse (fun h => by cases h)
  | .vstr _, .vnull => isFalse (fun h => by cases h)
  | .vstr _, .vbool _ => isFalse (fun h => by cases h)
  | .vstr _, .vint _ => isFalse (fun h => by cases h)
  | .vstr x, .vstr y =>
    match decEq x y with
    | isTrue h => isTrue (h ▸ rfl)
    | isFalse h => isFalse (fun hh => by cases hh; exact h rfl)
  | .vstr _, .vlist _ => isFalse (fun h => by cases h)
  | .vstr _, .vdict _ => isFalse (fun h => by cases h)
  | .vlist _, .vnull => isFalse (fun h => by cases h)
  | .vlist _, .vbool _ => isFalse (fun h => by cases h)
  | .vlist _, .vint _ => isFalse (fun h => by cases h)
  | .vlist _, .vstr _ => isFalse (fun h => by cases h)
  | .vlist x, .vlist y =>
    match decEqLV x y with
    | isTrue h => isTrue (h ▸ rfl)
    | isFalse h => isFalse (fun hh => by cases hh; exact h rfl)
  | .vlist _, .vdict _ => isFalse (fun h => by cases h)
  | .vdict _, .vnull => isFalse (fun h => by cases h)
  | .vdict _, .vbool _ => isFalse (fun h => by cases h)
  | .vdict _, .vint _ => isFalse (fun h => by cases h)
  | .vdict _, .vstr _ => isFalse (fun h => by cases h)
  | .vdict _, .vlist _ => isFalse (fun h => by cases h)
  | .vdict x, .vdict y =>
    match decEqDV x y with
    | isTrue h => isTrue (h ▸ rfl)
    | isFalse h => isFalse (fun hh => by cases hh; exact h rfl)

def decEqLV : (a b : List Value) → Decidable (a = b)
  | [], [] => isTrue rfl
  | [], _ :: _ => isFalse (fun h => by cases h)
  | _ :: _, [] => isFalse (fun h => by cases h)
  | x :: xs, y :: ys =>
    match decEqV x y, decEqLV xs ys with
    | isTrue h1, isTrue h2 => isTrue (by rw [h1, h2])
    | isFalse h1, _ => isFalse (fun hh => by cases hh; exact h1 rfl)
    | _, isFalse h2 => isFalse (fun hh => by cases hh; exact h2 rfl)

def decEqDV : (a b : List (String × Value)) → Decidable (a = b)
  | [], [] => isTrue rfl
  | [], _ :: _ => isFalse (fun h => by cases h)
  | _ :: _, [] => isFalse (fun h => by cases h)
  | (k1, x) :: xs, (k2, y) :: ys =>
    match decEq k1 k2, decEqV x y, decEqDV xs ys with
    | isTrue hk, isTrue h1, isTrue h2 => isTrue (by rw [hk, h1, h2])
    | isFalse hk, _, _ => isFalse (fun hh => by cases hh; exact hk rfl)
    | _, isFalse h1, _ => isFalse (fun hh => by cases hh; exact h1 rfl)
    | _, _, isFalse h2 => isFalse (fun hh => by cases hh; exact h2 rfl)

end

instance : DecidableEq Value := decEqV

abbrev Dict := List (String × Value)

/-- First binding for a key (keys are unique). -/
def dlookup : Dict → String → Option Value
  | [], _ => none
  | (k, v) :: rest, key => if k = key then some v else dlookup rest key

/-- Python `key in dict`. -/
def dhas (d : Dict) (key : String) : Bool :=
  (dlookup d key).isSome

/-- Python `dict[key] = v`: update in place if present, else append. -/
def dset : Dict → String → Value → Dict
  | [], key, v => [(key, v)]
  | (k, w) :: rest, key, v =>
    if k = key then (k, v) :: rest else (k, w) :: dset rest key v

/-- Python `dict.get(key)` — `None` when absent. -/
def pyGet (d : Dict) (key : String) : Value :=
  (dlookup d key).getD Value.vnull

def isListV : Value → Bool
  | Value.vlist _ => true
  | _ => false

def isDictV : Value → Bool
  | Value.vdict _ => true
  | _ => false

/-- Python `isinstance(x, int)` — `bool` is a subclass of `int`, so `True`/`False`
count, with values 1/0. -/
def idxAsInt : Value → Option Int
  | Value.vint n => some n
  | Value.vbool b => some (if b then 1 else 0)
  | _ => none

/-! ## Path resolver (read): `TemplateRenderer._get_nested_value` -/

/-- `path.split(".")`, as a list of segment strings. -/
def splitDot (path : String) : List String :=
  (splitChar '.' path.toList).map (fun cs => (⟨cs⟩ : String))

/-- The sibling "current index" lookup of the *read* path, for a segment
`key[current]`: try `current_<key.rstrip 's'>_index`, then `key_current_index`,
in the innermost dict.  `none` models Python's `idx` staying/becoming `None`
(which makes the read return `None`). -/
def siblingIdx (current : Value) (key : String) : Option Value :=
  match current with
  | Value.vdict d =>
    let k1 := "current_" ++ pyRstrip 's' key ++ "_index"
    let k2 := key ++ "_current_index"
    if dhas d k1 then
      match pyGet d k1 with
      | Value.vnull => none
      | v => some v
    else if dhas d k2 then
      match pyGet d k2 with
      | Value.vnull => none
      | v => some v
    else none
  | _ => none

/-- `TemplateRenderer._get_nested_value`, recursing over the split path.
Result `none` models an uncaught exception (a segment with two or more `[`
makes `part.split("[")` unpack fail with `ValueError`); `some Value.vnull`
is Python's `None` (absent *or* an explicitly stored null — the function
cannot tell them apart). -/
def getGo : Value → List String → Option Value
  | current, [] => some current
  | current, part :: rest =>
    if current = Value.vnull then some Value.vnull
    else if strContains part '[' && strContains part ']' then
      match (splitChar '[' part.toList).map (fun cs => (⟨cs⟩ : String)) with
      | [key, idxRaw] =>
        let idxStr := pyRstrip ']' idxRaw
        let idxOpt : Option Value :=
          if idxStr = "current" then siblingIdx current key
          else (pyInt idxStr).map Value.vint
        match idxOpt with
        | none => some Value.vnull
        | some idxV =>
          -- `if isinstance(current, dict): current = current.get(key)` —
          -- a non-dict `current` is kept and indexed directly.
          let cur1 := match current with
            | Value.vdict d => pyGet d key
            | c => c
          match cur1, idxAsInt idxV with
          | Value.vlist items, some idx =>
            if h : 0 ≤ idx ∧ idx < items.length then
              getGo (items.get ⟨idx.toNat, by omega⟩) rest
            else some Value.vnull
          | _, _ => some Value.vnull
      | _ => none
    else
      match current with
      | Value.vdict d => getGo (pyGet d part) rest
      | _ => some Value.vnull

/-- `TemplateRenderer._get_nested_value(data, path)`. -/
def getNestedValue (data : Value) (path : String) : Option Value :=
  getGo data (splitDot path)

/-! ## Template renderer: `TemplateRenderer.render` -/

/-- `str()` of the scalar values the replacer can meet. -/
def pyStr : Value → String
  | Value.vnull => "None"
  | Value.vbool b => if b then "True" else "False"
  | Value.vint n => toString n
  | Value.vstr s => s
  | Value.vlist _ => ""
  | Value.vdict _ => ""

/-- Minimal JSON string escaping (quote and backslash; the engine's templates
never hit control characters in practice). -/
def jsonEscape (s : String) : String :=
  ⟨s.toList.foldr (fun c acc =>
      if c = '"' then '\\' :: '"' :: acc
      else if c = '\\' then '\\' :: '\\' :: acc
      else c :: acc) []⟩

mutual

/-- `json.dumps` with default separators, as used for list/dict slot values. -/
def jsonDumps : Value → String
  | Value.vnull => "null"
  | Value.vbool b => if b then "true" else "false"
  | Value.vint n => toString n
  | Value.vstr s => "\"" ++ jsonEscape s ++ "\""
  | Value.vlist items => "[" ++ jsonDumpsList items ++ "]"
  | Value.vdict entries => "\x7b" ++ jsonDumpsDict entries ++ "\x7d"

def jsonDumpsList : List Value → String
  | [] => ""
  | [v] => jsonDumps v
  | v :: rest => jsonDumps v ++ ", " ++ jsonDumpsList rest

def jsonDumpsDict : List (String × Value) → String
  | [] => ""
  | [(k, v)] => "\"" ++ jsonEscape k ++ "\": " ++ jsonDumps v
  | (k, v) :: rest =>
    "\"" ++ jsonEscape k ++ "\": " ++ jsonDumps v ++ ", " ++ jsonDumpsDict rest

end

/-- The `replacer` closure of `TemplateRenderer.render`: strips the matched
group, resolves it, and renders a missing value (`None`) as `[<path>]`.
`none` propagates a read exception. -/
def replacePlaceholder (slots : Value) (content : List Char) : Option String :=
  let path := pyStrip ⟨content⟩
  match getGo slots (splitDot path) with
  | none => none
  | some Value.vnull => some ("[" ++ path ++ "]")
  | some (Value.vlist items) => some (jsonDumps (Value.vlist items))
  | some (Value.vdict entries) => some (jsonDumps (Value.vdict entries))
  | some v => some (pyStr v)

/-- Scanner equivalent of `re.sub(r'\x7b\x7b([^\x7d]+)\x7d\x7d', replacer, template)`:
at `\x7b\x7b`, take a maximal nonempty run of non-`\x7d` characters; if it is closed
by `\x7d\x7d` the placeholder is replaced, otherwise the scan restarts one character
later (exactly the regex's behaviour, since `[^\x7d]+` cannot cross a `\x7d`).
`fuel` only bounds the recursion; callers pass the text length, which the scan
never exceeds since every step consumes at least one character. -/
def scanTpl (slots : Value) : Nat → List Char → Option (List Char)
  | 0, rest => some rest
  | _ + 1, [] => some []
  | fuel + 1, c :: cs =>
    if c = '{' then
      match cs with
      | c2 :: cs2 =>
        if c2 = '{' then
          let content := cs2.takeWhile (· ≠ '}')
          let rest := cs2.dropWhile (· ≠ '}')
          match content, rest with
          | _ :: _, '}' :: '}' :: rest2 =>
            match replacePlaceholder slots content with
            | none => none
            | some rep =>
              (scanTpl slots fuel rest2).map (fun tail => rep.toList ++ tail)
          | _, _ => (scanTpl slots fuel cs).map (fun tail => c :: tail)
        else (scanTpl slots fuel cs).map (fun tail => c :: tail)
      | [] => some [c]
    else (scanTpl slots fuel cs).map (fun tail => c :: tail)

/-- `TemplateRenderer.render(template, slots)`; `none` models an uncaught
exception escaping from `_get_nested_value`. -/
def render (template : String) (slots : Value) : Option String :=
  if template = "" then some ""
  else (scanTpl slots template.toList.length template.toList).map
    (fun cs => (⟨cs⟩ : String))

/-! ## Path writer: `SlotWriter.write` -/

/-- Result of the writer's `resolve_index` helper. -/
inductive RRes where
  | ok : Value → RRes
  /-- `ValueError` — caught by `write`, which then does `return slots`. -/
  | verr : RRes
  /-- any other exception (`TypeError`, …) — uncaught. -/
  | exc : RRes

/-- `resolve_index(idx_str, key, context)` of `SlotWriter.write`.  For
`[current]` it looks for `current_<key.rstrip 's'>_index` then
`key_current_index` in `context` and returns the stored value; a missing key
raises `ValueError` (caught).  Python's `in` works on dicts, strings
(substring) and lists (membership) and raises `TypeError` otherwise; indexing
a string or list with a string key raises `TypeError` (uncaught). -/
def resolveIndexW (idxStr key : String) (context : Value) : RRes :=
  if idxStr = "current" then
    let k1 := "current_" ++ pyRstrip 's' key ++ "_index"
    let k2 := key ++ "_current_index"
    match context with
    | Value.vdict d =>
      if dhas d k1 then RRes.ok (pyGet d k1)
      else if dhas d k2 then RRes.ok (pyGet d k2)
      else RRes.verr
    | Value.vstr s =>
      if subStr k1 s || subStr k2 s then RRes.exc else RRes.verr
    | Value.vlist l =>
      if l.contains (Value.vstr k1) || l.contains (Value.vstr k2) then RRes.exc
      else RRes.verr
    | _ => RRes.exc
  else
    match pyInt idxStr with
    | some n => RRes.ok (Value.vint n)
    | none => RRes.verr

/-- Python list index normalisation: a position for `l[idx]` / `l[idx] = v`,
`none` on `IndexError`. -/
def pyPos (len : Nat) (idx : Int) : Option Nat :=
  if 0 ≤ idx ∧ idx < len then some idx.toNat
  else if 0 ≤ idx + len ∧ idx < 0 then some (idx + len).toNat
  else none

/-- `while len(l) <= idx: l.append(filler)`. -/
def extendTo (l : List Value) (filler : Value) (idx : Nat) : List Value :=
  l ++ List.replicate (idx + 1 - l.length) filler

/-- `SlotWriter.write`'s recursive core over the split path.  `none` models an
uncaught exception.  Python's early `return slots` (a caught `ValueError` from
`resolve_index`) yields `some` of the data *as mutated so far* — intermediate
containers auto-vivified before the failure persist, which the rebuilding in
the `part :: rest` case reproduces.  The engine's data is string-keyed, so the
case `dict_value[int_index] = v` (which would create an int key) cannot arise
and is modelled as an exception. -/
def writeGo (current : Value) (parts : List String) (v : Value) : Option Value :=
  match parts with
  | [] => none  -- `parts[-1]` on an empty list: unreachable from `write`
  | [finalKey] =>
    if strContains finalKey '[' && strContains finalKey ']' then
      match (splitChar '[' finalKey.toList).map (fun cs => (⟨cs⟩ : String)) with
      | [key, idxRaw] =>
        let idxStr := pyRstrip ']' idxRaw
        match resolveIndexW idxStr key current with
        | RRes.verr => some current
        | RRes.exc => none
        | RRes.ok idxV =>
          match current with
          | Value.vdict d =>
            let d1 := if dhas d key then d else dset d key (Value.vlist [])
            match idxAsInt idxV with
            | none => none  -- `len(...) <= idx` with a non-int: TypeError
            | some idx =>
              match pyGet d1 key with
              | Value.vlist l =>
                let l1 := if 0 ≤ idx then extendTo l Value.vnull idx.toNat else l
                match pyPos l1.length idx with
                | none => none  -- IndexError on a too-negative index
                | some pos => some (Value.vdict (dset d1 key (Value.vlist (l1.set pos v))))
              | _ => none  -- dict/str: append → AttributeError, or setitem → TypeError
          | _ => none  -- non-dict: `in`-test TypeError or str/list setitem TypeError
      | _ => none  -- segment with 2+ '[': unpack ValueError (uncaught)
    else
      match current with
      | Value.vdict d =>
        match dlookup d finalKey with
        | some (Value.vlist l) =>
          if isListV v then some (Value.vdict (dset d finalKey v))
          else some (Value.vdict (dset d finalKey (Value.vlist (l ++ [v]))))
        | _ => some (Value.vdict (dset d finalKey v))
      | _ => none  -- `in`/setitem on a non-dict: TypeError
  | part :: rest =>
    if strContains part '[' && strContains part ']' then
      match (splitChar '[' part.toList).map (fun cs => (⟨cs⟩ : String)) with
      | [key, idxRaw] =>
        let idxStr := pyRstrip ']' idxRaw
        match resolveIndexW idxStr key current with
        | RRes.verr => some current
        | RRes.exc => none
        | RRes.ok idxV =>
          match current with
          | Value.vdict d =>
            let d1 := if dhas d key then d else dset d key (Value.vlist [])
            match idxAsInt idxV with
            | none => none
            | some idx =>
              match pyGet d1 key with
              | Value.vlist l =>
                let l1 := if 0 ≤ idx then extendTo l (Value.vdict []) idx.toNat else l
                match pyPos l1.length idx with
                | none => none
                | some pos =>
                  match l1.get? pos with
                  | none => none  -- cannot happen: pos < length
                  | some sub =>
                    match writeGo sub rest v with
                    | none => none
                    | some sub2 =>
                      some (Value.vdict (dset d1 key (Value.vlist (l1.set pos sub2))))
              | Value.vstr s =>
                -- a str has len but no append: extension raises AttributeError;
                -- within range, `s[idx]` yields a 1-char str, which no deeper
                -- write can mutate (strings are immutable).
                if s.length ≤ idx then none
                else
                  match pyPos s.length idx with
                  | none => none
                  | some pos =>
                    match writeGo (Value.vstr ⟨[s.toList.getD pos ' ']⟩) rest v with
                    | none => none
                    | some _ => some (Value.vdict d1)
              | _ => none  -- dict: append/int-key getitem → exception; others: len TypeError
          | _ => none
      | _ => none
    else
      match current with
      | Value.vdict d =>
        match dlookup d part with
        | none =>
          -- decide whether the vivified container is a list or a dict from the
          -- *next* segment (`if next_part and "[" in next_part`)
          let nextPart := rest.headD ""
          let child : Value :=
            if nextPart ≠ "" && strContains nextPart '[' then Value.vlist []
            else Value.vdict []
          match writeGo child rest v with
          | none => none
          | some child2 => some (Value.vdict (dset d part child2))
        | some sub =>
          match writeGo sub rest v with
          | none => none
          | some sub2 => some (Value.vdict (dset d part sub2))
      | _ => none  -- membership test / getitem / setitem on a non-dict: TypeError

/-- `SlotWriter.write(slots, save_to, value)` — `save_to` of `None` or `""` is
falsy and returns the slots untouched; `none` models an uncaught exception. -/
def write (slots : Dict) (saveTo : Option String) (v : Value) : Option Dict :=
  match saveTo with
  | none => some slots
  | some p =>
    if p = "" then some slots
    else
      match writeGo (Value.vdict slots) (splitDot p) v with
      | some (Value.vdict d) => some d
      | some _ => none  -- unreachable: a dict stays a dict under writeGo
      | none => none

/-! ## Stage advancer: `StageAdvancer._parse_yes_no` and `get_next_stage` -/

def yesTokens : List String :=
  ["yes", "y", "yeah", "yep", "yup", "sure", "ok", "okay",
   "k", "great", "good", "fine", "alright", "right",
   "correct", "true", "accurate", "affirmative", "confirmed",
   "generally", "mostly"]

def noTokens : List String :=
  ["no", "n", "nope", "nah", "negative", "incorrect", "false"]

/-- `StageAdvancer._parse_yes_no(user_response)`: `some true` = yes,
`some false` = no, `none` = unclear/ambiguous. -/
def parseYesNo (userResponse : String) : Option Bool :=
  -- `if not user_response: return None`, and `if not cleaned: return None`,
  -- both collapse to "no alphanumeric token".
  match alnumTokens userResponse with
  | [] => none
  | t0 :: restTokens =>
    let tokens := t0 :: restTokens
    if yesTokens.contains t0 then some true
    else if noTokens.contains t0 then some false
    else if t0 = "i" && (restTokens.headD "" = "guess" || restTokens.headD "" = "think") then
      some true
    else if t0 = "sounds" && tokens.contains "good" then some true
    else if t0 = "looks" && tokens.contains "good" then some true
    else if tokens.contains "not" &&
        (tokens.contains "accurate" || tokens.contains "correct" || tokens.contains "true") then
      some false
    else
      let yesHits := tokens.any (fun t => yesTokens.contains t)
      let noHits := tokens.any (fun t => noTokens.contains t)
      if yesHits && !noHits then some true
      else if noHits && !yesHits then some false
      else none

/-- One gate criterion (`criterion.get("slot")`, `.get("required", True)`,
`.get("min_items")`, `.get("max_items")`); a missing optional key is `none`.
The engine's flows always carry a string `slot`. -/
structure Criterion where
  slot : String := ""
  required : Option Bool := none
  min_items : Option Int := none
  max_items : Option Int := none
deriving DecidableEq

/-- `StageAdvancer._check_gate_criteria(criteria, slots)`: AND over all
criteria; `none` propagates a read exception out of `_get_nested_value`. -/
def checkGateCriteria : List Criterion → Value → Option Bool
  | [], _ => some true
  | c :: rest, slots =>
    match getGo slots (splitDot c.slot) with
    | none => none
    | some v =>
      if (c.required.getD true) && v = Value.vnull then some false
      else
        let minFail :=
          match c.min_items with
          | none => false
          | some m =>
            match v with
            | Value.vlist items => decide ((items.length : Int) < m)
            | _ => true
        if minFail then some false
        else
          let maxFail :=
            match c.max_items with
            | none => false
            | some m =>
              match v with
              | Value.vlist items => decide ((items.length : Int) > m)
              | _ => false
          if maxFail then some false
          else checkGateCriteria rest slots

/-- A branch record: `when_are = some expected` models
`branch["when"]["action_result_equals"].get("value")` when the
`action_result_equals` key is present (`none` = key absent). -/
structure Branch where
  when_are : Option Value := none
  next : Option String := none
deriving DecidableEq

/-- One `clarify_if` rule of a question (`rule.get("condition", "")`,
`rule.get("follow_up", …)`). -/
structure ClarifyRule where
  condition : Option String := none
  follow_up : Option String := none
deriving DecidableEq

/-- A question of a `questions` stage. -/
structure Question where
  id : Option String := none
  ask : String := ""
  save_to : Option String := none
  clarify_if : List ClarifyRule := []
deriving DecidableEq

/-- A stage record; optional JSON keys are `Option` fields (the engine's
stages always carry `id` and `type` strings). -/
structure Stage where
  id : String := ""
  type : String := ""
  next : Option String := none
  on_yes : Option String := none
  on_no : Option String := none
  on_pass : Option String := none
  on_fail : Option String := none
  on_stop : Option String := none
  action : Option String := none
  save_to : Option String := none
  prompt : Option String := none
  ask : Option String := none
  summary_template : Option String := none
  criteria : List Criterion := []
  branches : List Branch := []
  questions : List Question := []
  /-- `stage.get("stop_condition", \x7b\x7d).get("signal_slot")` -/
  stop_signal_slot : Option String := none
deriving DecidableEq

/-- `StageAdvancer.get_next_stage(stage, slots, user_response)`.
`Except.error` carries the `FlowRunnerError` message for a missing `next`;
the empty payload `""` stands for an exception propagating out of the gate's
criteria evaluation (its Python text is `TypeError`/`ValueError` prose the
model does not reproduce). -/
def getNextStage (stage : Stage) (slots : Value) (userResponse : Option String) :
    Except String String :=
  let t := stage.type
  if t = "message" || t = "questions" || t = "action" || t = "output" then
    match stage.next with
    | some nxt =>
      if nxt = "" then Except.error ("Stage " ++ stage.id ++ " missing 'next' field")
      else Except.ok nxt
    | none => Except.error ("Stage " ++ stage.id ++ " missing 'next' field")
  else if t = "confirm" then
    match parseYesNo (userResponse.getD "") with
    | some true => Except.ok (stage.on_yes.getD "end")
    | some false => Except.ok (stage.on_no.getD "end")
    | none =>
      -- unclear: stay on the same confirm stage (`stage.get("id", "end")`)
      Except.ok stage.id
  else if t = "gate" then
    match checkGateCriteria stage.criteria slots with
    | none => Except.error ""
    | some true => Except.ok (stage.on_pass.getD "end")
    | some false => Except.ok (stage.on_fail.getD "end")
  else if t = "branch" then
    match stage.branches with
    | b :: _ => Except.ok (b.next.getD "end")
    | [] => Except.ok "end"
  else if t = "loop" then
    Except.ok (stage.next.getD "end")
  else
    Except.ok "end"

/-! ## Node layer (`src/nodes/interview_nodes.py`) -/

/-- A conversation message: `AIMessage` or `HumanMessage` with its content. -/
inductive Msg where
  | ai : String → Msg
  | human : String → Msg
deriving DecidableEq

/-- The transient `pending` record.  `has_save_to` models the `"save_to" in
pending` presence test (the key's value may itself be `None`, hence the
separate `save_to : Option String`). -/
structure Pending where
  question_id : Option String := none
  has_save_to : Bool := false
  save_to : Option String := none
  ask : String := ""
  clarify_if : List ClarifyRule := []
  question_index : Option Int := none
  is_clarifying : Bool := false
  original_answer : Option String := none
  confirm_id : Option String := none
  on_yes : Option String := none
  on_no : Option String := none
  summary_template : Option String := none
deriving DecidableEq

/-- A LangGraph node's partial state update: a field that is `none` was not in
the returned dict (state unchanged there).  `pending := some none` is the
explicit `"pending": None`.  `messages` are the appended bot messages and
`events` the appended trace event kinds. -/
structure Update where
  error : Option String := none
  active_stage_id : Option String := none
  slots : Option Dict := none
  pending : Option (Option Pending) := none
  messages : List String := []
  question_cursor : Option (List (String × Int)) := none
  auto_advance_count : Option Nat := none
  retry_count : Option Nat := none
  events : List String := []
deriving DecidableEq

/-- `FlowLoader.get_stage`: linear scan for `stage.get("id") == stage_id`;
`none` models the `FlowRunnerError`.  (Flow files are opaque configuration:
a loaded flow is modelled as its list of stages.) -/
def getStage (flow : List Stage) (stageId : String) : Option Stage :=
  flow.find? (fun s => s.id = stageId)

def pyLower (s : String) : String :=
  ⟨s.toList.map Char.toLower⟩

/-- `_should_clarify(user_text, condition)`. -/
def shouldClarify (userText : String) (condition : String) : Bool :=
  if userText = "" then true
  else
    let text := pyStrip userText
    if condition = "empty_or_too_short" then text.length < 5
    else if condition = "vague" then
      let lowerText := pyLower text
      let clearResponses : List String :=
        ["no", "yes", "y", "n", "nope", "yep", "yeah", "nah",
         "no.", "yes.", "no decision", "none", "n/a", "na",
         "not applicable", "there is no", "there's no"]
      if clearResponses.contains lowerText ||
          clearResponses.any (fun r => subStr r lowerText) then false
      else
        let vagueWords : List String :=
          ["maybe", "sort of", "kind of", "i think", "not sure", "dunno", "idk", "probably"]
        vagueWords.any (fun w => subStr w lowerText)
    else if condition = "unclear_yes_no" then (parseYesNo text).isNone
    else false

/-- The `clarify_if` scan of `ingest_user_answer_node`: the first rule whose
condition fires, together with its effective `follow_up`
(`rule.get("follow_up", "Can you provide more detail?")`). -/
def firstClarify (userText : String) : List ClarifyRule → Option (String × String)
  | [] => none
  | r :: rest =>
    let condition := r.condition.getD ""
    if shouldClarify userText condition then
      some (condition, r.follow_up.getD "Can you provide more detail?")
    else firstClarify userText rest

/-! Question-cursor helpers (a Python dict from stage id to int). -/

def cursorGet (c : List (String × Int)) (k : String) : Option Int :=
  (c.find? (fun e => e.1 = k)).map (fun e => e.2)

def cursorSet : List (String × Int) → String → Int → List (String × Int)
  | [], k, v => [(k, v)]
  | (k1, v1) :: rest, k, v =>
    if k1 = k then (k1, v) :: rest else (k1, v1) :: cursorSet rest k v

/-- `cursor.pop(k, None)`. -/
def cursorPop (c : List (String × Int)) (k : String) : List (String × Int) :=
  c.filter (fun e => e.1 ≠ k)

/-- The post-write tail of `ingest_user_answer_node`: advance within a
`questions` stage or to its `next` stage; other stage types just clear
`pending`. -/
def ingestAdvance (stage : Stage) (pend : Pending) (activeStageId : String)
    (questionCursor : List (String × Int)) (slots' : Dict) : Update :=
  if stage.type = "questions" then
    let idx : Int := pend.question_index.getD ((cursorGet questionCursor activeStageId).getD 0)
    let nextIdx := idx + 1
    if nextIdx < (stage.questions.length : Int) then
      { slots := some slots', pending := some none,
        events := ["answer_ingested"],
        question_cursor := some (cursorSet questionCursor activeStageId nextIdx) }
    else
      { slots := some slots', pending := some none,
        active_stage_id := some (stage.next.getD "end"),
        events := ["answer_ingested"],
        question_cursor := some (cursorSet questionCursor activeStageId nextIdx) }
  else
    { slots := some slots', pending := some none,
      events := ["answer_ingested"],
      question_cursor := some questionCursor }

/-- `ingest_user_answer_node`.  The flow is passed as its stage list plus its
id (used only in exception text); the caller has already appended the user's
message.  A `write` exception is caught at the node boundary and becomes a
session error (its Python prose is not reproduced). -/
def ingestUserAnswerNode (flow : List Stage) (flowId : String) (messages : List Msg)
    (pending : Option Pending) (slots : Dict) (activeStageId : String)
    (questionCursor : List (String × Int)) (retryCount : Nat) : Update :=
  match messages.getLast? with
  | none => {}
  | some (Msg.ai _) => {}
  | some (Msg.human userText) =>
    match pending with
    | none => {}
    | some pend =>
      match getStage flow activeStageId with
      | none =>
        { error := some ("Failed to ingest answer: Stage '" ++ activeStageId ++
            "' not found in flow '" ++ flowId ++ "'"),
          retry_count := some (retryCount + 1) }
      | some stage =>
        if pend.has_save_to then
          if pend.is_clarifying then
            let orig := pend.original_answer.getD ""
            let combined := if orig ≠ "" then orig ++ "\n" ++ userText else userText
            match write slots pend.save_to (Value.vstr combined) with
            | none =>
              { error := some "Failed to ingest answer: unhandled exception in SlotWriter.write",
                retry_count := some (retryCount + 1) }
            | some slots' => ingestAdvance stage pend activeStageId questionCursor slots'
          else
            match firstClarify userText pend.clarify_if with
            | some (_, followUp) =>
              if followUp ≠ "" then
                { messages := [followUp],
                  events := ["clarify_requested"],
                  pending := some (some { pend with
                    is_clarifying := true, original_answer := some userText }),
                  slots := some slots,
                  question_cursor := some questionCursor }
              else
                match write slots pend.save_to (Value.vstr userText) with
                | none =>
                  { error := some "Failed to ingest answer: unhandled exception in SlotWriter.write",
                    retry_count := some (retryCount + 1) }
                | some slots' => ingestAdvance stage pend activeStageId questionCursor slots'
            | none =>
              match write slots pend.save_to (Value.vstr userText) with
              | none =>
                { error := some "Failed to ingest answer: unhandled exception in SlotWriter.write",
                  retry_count := some (retryCount + 1) }
              | some slots' => ingestAdvance stage pend activeStageId questionCursor slots'
        else if stage.type = "confirm" then
          match getNextStage stage (Value.vdict slots) (some userText) with
          | Except.error e =>
            { error := some ("Failed to ingest answer: " ++ e),
              retry_count := some (retryCount + 1) }
          | Except.ok nxt =>
            { slots := some slots, pending := some none, active_stage_id := some nxt,
              events := ["confirm_ingested"], question_cursor := some questionCursor }
        else
          { slots := some slots, pending := some none,
            question_cursor := some questionCursor, events := ["answer_ignored"] }

/-! ## Auto-advance (`auto_advance_node`) -/

/-- The fixed list of stage ids whose question cursors the
`copy_next_step_to_buffer` action resets. -/
def stagesToReset : List String :=
  ["workflow_ask_next_step",
   "workflow_step_capture__step_description",
   "workflow_step_capture__owner",
   "workflow_step_capture__inputs",
   "workflow_step_capture__outputs",
   "workflow_step_capture__systems",
   "workflow_step_capture__decision_wait_exception",
   "workflow_step_capture__wait_exception",
   "workflow_step_capture__decision_outcomes"]

/-- Outcome of one iteration of the `while` body of `auto_advance_node`:
`stop` is a `break` (with the trace events as appended so far), `go` carries
the advanced stage/slots/events for the next iteration, `fail` an exception
the node's boundary will catch. -/
inductive StepRes where
  | stop : List String → StepRes
  | go : String → Dict → List String → StepRes
  | fail : String → StepRes

/-- One iteration of the body of `auto_advance_node`'s loop.  `acts` is the
external `execute_action` collaborator (already normalised to
`(slots, result)`). -/
def autoStep (flow : List Stage) (flowId : String)
    (acts : String → Dict → String → Dict × Value) (userResp : String)
    (active : String) (slots : Dict) (events : List String) : StepRes :=
  match getStage flow active with
  | none => StepRes.fail ("Stage '" ++ active ++ "' not found in flow '" ++ flowId ++ "'")
  | some stage =>
    if stage.type = "questions" || stage.type = "confirm" then
      StepRes.stop (events ++ ["auto_advance_stop"])
    else if active = "end" then
      StepRes.stop (events ++ ["auto_advance_stop"])
    else if stage.type = "message" then
      StepRes.go (stage.next.getD "end") slots (events ++ ["stage_advanced"])
    else if stage.type = "action" then
      -- `if action_name:` — a missing or empty name skips execution
      let name := stage.action.getD ""
      if name = "" then
        StepRes.go (stage.next.getD "end") slots (events ++ ["stage_advanced"])
      else
        let (slots1, res) := acts name slots userResp
        let slots2 := dset slots1 "_last_action_result" res
        let ev1 := events ++ ["action_executed"] ++
          (if name = "copy_next_step_to_buffer" then ["question_cursors_reset"] else [])
        StepRes.go (stage.next.getD "end") slots2 (ev1 ++ ["stage_advanced"])
    else if stage.type = "gate" then
      match getNextStage stage (Value.vdict slots) none with
      | Except.error e => StepRes.fail e
      | Except.ok nxt => StepRes.go nxt slots (events ++ ["gate_routed"])
    else if stage.type = "branch" then
      let lastRes := pyGet slots "_last_action_result"
      let matched := stage.branches.find? (fun b =>
        match b.when_are with
        | some expected => expected = lastRes
        | none => false)
      let nxt :=
        match matched with
        | some b => b.next.getD "end"
        | none =>
          match stage.branches with
          | b :: _ => b.next.getD "end"
          | [] => "end"
      StepRes.go nxt slots (events ++ ["branch_routed"])
    else if stage.type = "loop" then
      let signal := stage.stop_signal_slot.getD ""
      if signal ≠ "" && subStr "data_elements" signal then
        match dlookup slots "process_parameters" with
        | none =>
          StepRes.go (stage.on_stop.getD "end") slots (events ++ ["loop_exit", "stage_advanced"])
        | some (Value.vdict pp) =>
          if pyGet pp "current_data_element_index" = Value.vnull then
            StepRes.go (stage.on_stop.getD "end") slots (events ++ ["loop_exit", "stage_advanced"])
          else
            StepRes.go (stage.next.getD "end") slots (events ++ ["stage_advanced"])
        | some _ => StepRes.fail ""  -- `.get` on a non-dict: AttributeError
      else
        StepRes.go (stage.next.getD "end") slots (events ++ ["stage_advanced"])
    else if stage.type = "output" then
      StepRes.go (stage.next.getD "end") slots (events ++ ["stage_advanced"])
    else
      StepRes.stop (events ++ ["auto_advance_stop"])

/-- The `while steps < max_steps` loop of `auto_advance_node`, with the
remaining budget as fuel (`fuel = max_steps - steps` throughout, so running
out of fuel is exactly the loop condition turning false). -/
def autoLoop (flow : List Stage) (flowId : String)
    (acts : String → Dict → String → Dict × Value) (userResp : String) :
    Nat → String → Dict → Nat → List String →
    Except String (String × Dict × Nat × List String)
  | 0, active, slots, steps, events => Except.ok (active, slots, steps, events)
  | fuel + 1, active, slots, steps, events =>
    match autoStep flow flowId acts userResp active slots events with
    | StepRes.fail e => Except.error e
    | StepRes.stop ev2 => Except.ok (active, slots, steps, ev2)
    | StepRes.go a2 s2 ev2 => autoLoop flow flowId acts userResp fuel a2 s2 (steps + 1) ev2

/-- The last user message's content, if the newest message is one (used by
`action` stages as `user_response`). -/
def lastHumanText (messages : List Msg) : String :=
  match messages.getLast? with
  | some (Msg.human c) => c
  | _ => ""

/-- `auto_advance_node`: runs the bounded loop, then either surfaces the
budget-exhaustion error (`steps >= max_steps`) or returns the advanced state;
a caught exception becomes `"Auto-advance failed: …"`. -/
def autoAdvanceNode (flow : List Stage) (flowId : String)
    (acts : String → Dict → String → Dict × Value) (messages : List Msg)
    (activeStageId : String) (slots : Dict)
    (questionCursor : List (String × Int)) (autoAdvanceCount : Nat)
    (maxAutoAdvanceSteps : Option Nat) (retryCount : Nat) : Update :=
  let maxSteps := maxAutoAdvanceSteps.getD 50
  let userResp := lastHumanText messages
  match autoLoop flow flowId acts userResp maxSteps activeStageId slots 0 [] with
  | Except.error e =>
    { error := some ("Auto-advance failed: " ++ e), retry_count := some (retryCount + 1) }
  | Except.ok (active, slots', steps, events) =>
    if maxSteps ≤ steps then
      { error := some ("Auto-advance exceeded max steps (" ++ toString maxSteps ++ ")"),
        retry_count := some (retryCount + 1) }
    else
      let base : Update :=
        { active_stage_id := some active, slots := some slots',
          auto_advance_count := some (autoAdvanceCount + steps),
          events := events ++ ["auto_advance_summary"] }
      if events.contains "question_cursors_reset" then
        { base with question_cursor := some (stagesToReset.foldl cursorPop questionCursor) }
      else base

/-! ## Loop detection and prompt rendering (`_detect_loop`, `render_prompt_node`) -/

def takeLast {α : Type} (n : Nat) (l : List α) : List α :=
  l.drop (l.length - n)

def aiContent : Msg → Option String
  | Msg.ai c => some (pyStrip c)
  | Msg.human _ => none

/-- The inspected window of `_detect_loop`: the (stripped) contents of the up
to 10 most recent bot messages among the last 20 messages. -/
def recentAIWindow (messages : List Msg) : List String :=
  ((takeLast 20 messages).reverse.filterMap aiContent).take 10

/-- `_detect_loop(state)`. -/
def detectLoop (messages : List Msg) : Bool :=
  if messages.length < 6 then false
  else
    let w := recentAIWindow messages
    if w.length < 3 then false
    else w.any (fun m => decide (20 < m.length) && decide (3 ≤ w.count m))

/-- Python `questions[idx]` (negative indices count from the end);
`none` is an `IndexError`. -/
def pyListGet {α : Type} (l : List α) (idx : Int) : Option α :=
  match pyPos l.length idx with
  | some pos => l.get? pos
  | none => none

/-- `render_prompt_node`. -/
def renderPromptNode (flow : List Stage) (flowId : String) (messages : List Msg)
    (activeStageId : String) (slots : Dict) (questionCursor : List (String × Int))
    (retryCount : Nat) : Update :=
  let errU : String → Update := fun e =>
    { error := some ("Failed to render prompt: " ++ e),
      retry_count := some (retryCount + 1) }
  let notFound : String → String := fun sid =>
    "Stage '" ++ sid ++ "' not found in flow '" ++ flowId ++ "'"
  if detectLoop messages then
    match getStage flow activeStageId with
    | none => errU (notFound activeStageId)
    | some stage =>
      { messages := ["Thanks — moving on."], pending := some none,
        active_stage_id := some (stage.next.getD "end"),
        events := ["loop_detected_force_advance"] }
  else if activeStageId = "end" then
    match getStage flow "end" with
    | none => errU (notFound "end")
    | some stage =>
      match render (stage.prompt.getD "Interview complete. Thank you!") (Value.vdict slots) with
      | none => errU "unhandled exception in TemplateRenderer.render"
      | some rendered =>
        { messages := [rendered], pending := some none, events := ["prompt_rendered"] }
  else
    match getStage flow activeStageId with
    | none => errU (notFound activeStageId)
    | some stage =>
      if stage.type = "questions" && stage.questions ≠ [] then
        let idx : Int := (cursorGet questionCursor activeStageId).getD 0
        if (stage.questions.length : Int) ≤ idx then
          -- exhausted-cursor safety net
          { active_stage_id := some (stage.next.getD "end"),
            messages := ["Thanks — moving on."], pending := some none,
            events := ["prompt_rendered"] }
        else
          match pyListGet stage.questions idx with
          | none => errU "unhandled IndexError"
          | some q =>
            match render q.ask (Value.vdict slots) with
            | none => errU "unhandled exception in TemplateRenderer.render"
            | some rendered =>
              let pend : Pending :=
                { question_id := q.id
                  has_save_to := true
                  save_to := q.save_to
                  ask := rendered
                  clarify_if := q.clarify_if
                  question_index := some idx }
              { messages := [rendered],
                pending := some (some pend),
                events := ["prompt_rendered"] }
      else if stage.type = "confirm" then
        let summaryTemplate := stage.summary_template.getD ""
        let askText := stage.ask.getD "Is this correct?"
        match render summaryTemplate (Value.vdict slots) with
        | none => errU "unhandled exception in TemplateRenderer.render"
        | some summary =>
          let pend : Pending :=
            { confirm_id := some stage.id
              summary_template := some summaryTemplate
              ask := askText
              on_yes := stage.on_yes
              on_no := stage.on_no }
          { messages := [summary ++ "\n\n" ++ askText],
            pending := some (some pend),
            events := ["prompt_rendered"] }
      else
        { messages := ["Unexpected stage type. Please continue."], pending := some none,
          events := ["prompt_rendered"] }

/-! ## Theorems -/

/-- **C1.**  For every confirm stage and every user response string:
if the tolerant yes/no classifier returns affirmative, `get_next_stage`
returns the stage's `on_yes`; if negative, its `on_no`; if unclear, the
confirm stage's own id (re-prompt) — never silently the `no` branch.  In
particular `"Yes."` is affirmative, `"maybe"` is unclear, and
`"No, fix the third item"` is negative. -/
theorem confirm_stage_routing (stage : Stage) (slots : Value) (resp y n : String)
    (hty : stage.type = "confirm") (hy : stage.on_yes = some y) (hn : stage.on_no = some n) :
    (parseYesNo resp = some true → getNextStage stage slots (some resp) = Except.ok y) ∧
    (parseYesNo resp = some false → getNextStage stage slots (some resp) = Except.ok n) ∧
    (parseYesNo resp = none → getNextStage stage slots (some resp) = Except.ok stage.id) ∧
    parseYesNo "Yes." = some true ∧
    parseYesNo "maybe" = none ∧
    parseYesNo "No, fix the third item" = some false := by
  refine ⟨?_, ?_, ?_, by decide, by decide, by decide⟩ <;>
    intro hp <;> simp [getNextStage, hty, hp, hy, hn]

/-- Witness for C1 at a concrete confirm stage (`on_yes="end"`, `on_no="retry"`)
and the three literal inputs of the claim. -/
theorem confirm_stage_routing_witness :
    getNextStage { id := "cs", type := "confirm", on_yes := some "end", on_no := some "retry" }
      (Value.vdict []) (some "Yes.") = Except.ok "end" ∧
    getNextStage { id := "cs", type := "confirm", on_yes := some "end", on_no := some "retry" }
      (Value.vdict []) (some "maybe") = Except.ok "cs" ∧
    getNextStage { id := "cs", type := "confirm", on_yes := some "end", on_no := some "retry" }
      (Value.vdict []) (some "No, fix the third item") = Except.ok "retry" := by
  refine ⟨?_, ?_, ?_⟩
  · exact (confirm_stage_routing _ (Value.vdict []) "Yes." "end" "retry" rfl rfl rfl).1
      (by decide)
  · exact (confirm_stage_routing _ (Value.vdict []) "maybe" "end" "retry" rfl rfl rfl).2.2.1
      (by decide)
  · exact (confirm_stage_routing _ (Value.vdict []) "No, fix the third item" "end" "retry"
      rfl rfl rfl).2.1 (by decide)

/-- A criteria list containing a required-by-default criterion whose slot is
absent can never evaluate to `some true`. -/
theorem checkGate_never_true_of_failing (slots : Value) (c : Criterion)
    (hreq : c.required = none)
    (habs : getGo slots (splitDot c.slot) = some Value.vnull) :
    ∀ cs1 cs2 b, checkGateCriteria (cs1 ++ c :: cs2) slots = some b → b = false := by
  intro cs1
  induction cs1 with
  | nil =>
    intro cs2 b h
    have hc : checkGateCriteria (c :: cs2) slots = some false := by
      simp [checkGateCriteria, habs, hreq]
    rw [List.nil_append, hc] at h
    exact (Option.some.inj h).symm
  | cons c1 rest ih =>
    intro cs2 b h
    cases hg : getGo slots (splitDot c1.slot) with
    | none =>
      simp only [List.cons_append, checkGateCriteria, hg] at h
      cases h
    | some v =>
      simp only [List.cons_append, checkGateCriteria, hg] at h
      split at h
      · exact (Option.some.inj h).symm
      · split at h
        · exact (Option.some.inj h).symm
        · split at h
          · exact (Option.some.inj h).symm
          · exact ih cs2 b (by simpa using h)

/-- **C9.**  A gate criterion that omits the `required` flag is treated as
required: when its slot path resolves to absent, the gate as a whole can only
fail (never pass), and `get_next_stage` routes to the stage's `on_fail`. -/
theorem gate_required_defaults_to_true (stage : Stage) (slots : Value)
    (userResponse : Option String) (c : Criterion) (cs1 cs2 : List Criterion)
    (hty : stage.type = "gate")
    (hcrit : stage.criteria = cs1 ++ c :: cs2)
    (hreq : c.required = none)
    (habs : getGo slots (splitDot c.slot) = some Value.vnull) :
    (∀ b, checkGateCriteria stage.criteria slots = some b → b = false) ∧
    (∀ s, getNextStage stage slots userResponse = Except.ok s →
      s = stage.on_fail.getD "end") := by
  have hfail := checkGate_never_true_of_failing slots c hreq habs cs1 cs2
  constructor
  · intro b h
    exact hfail b (by rw [← hcrit]; exact h)
  · intro s hs
    simp only [getNextStage, hty] at hs
    norm_num at hs
    cases hg : checkGateCriteria stage.criteria slots with
    | none => rw [hg] at hs; cases hs
    | some b =>
      have hb : b = false := by
        apply hfail
        rw [← hcrit]; exact hg
      rw [hg, hb] at hs
      cases hs
      rfl

/-- Witness for C9: a gate with a single criterion (no `required` key) whose
slot `"a.b"` is absent routes to `on_fail = "fix"`. -/
theorem gate_required_defaults_to_true_witness :
    (∀ b, checkGateCriteria [{ slot := "a.b" }] (Value.vdict []) = some b → b = false) ∧
    (∀ s, getNextStage
        { id := "g", type := "gate", criteria := [{ slot := "a.b" }],
          on_pass := some "go", on_fail := some "fix" }
        (Value.vdict []) none = Except.ok s → s = "fix") :=
  gate_required_defaults_to_true
    { id := "g", type := "gate", criteria := [{ slot := "a.b" }],
      on_pass := some "go", on_fail := some "fix" }
    (Value.vdict []) none { slot := "a.b" } [] [] rfl rfl rfl (by decide)

theorem takeWhile_append_all (p : Char → Bool) (l1 l2 : List Char) (h : ∀ c ∈ l1, p c) :
    (l1 ++ l2).takeWhile p = l1 ++ l2.takeWhile p := by
  induction l1 with
  | nil => simp
  | cons c cs ih =>
    simp only [List.cons_append, List.takeWhile_cons, h c (by simp)]
    simp only [if_true]
    rw [ih (fun x hx => h x (by simp [hx]))]

theorem dropWhile_append_all (p : Char → Bool) (l1 l2 : List Char) (h : ∀ c ∈ l1, p c) :
    (l1 ++ l2).dropWhile p = l2.dropWhile p := by
  induction l1 with
  | nil => simp
  | cons c cs ih =>
    simp only [List.cons_append, List.dropWhile_cons, h c (by simp)]
    simp only [if_true]
    exact ih (fun x hx => h x (by simp [hx]))

theorem toList_ne_nil_of_ne_empty (a : String) (h : a ≠ "") : a.toList ≠ [] := by
  intro hl
  apply h
  have hmk : a = String.mk a.toList := rfl
  rw [hmk, hl]

/-- **C10.**  A `\x7b\x7bpath\x7d\x7d` placeholder whose path resolves to an explicitly
stored `None` renders as the literal placeholder text `[path]`, exactly as if
the path were absent: the read conflates a stored null with a missing value,
so the renderer cannot distinguish them. -/
theorem stored_null_renders_as_placeholder (d : Dict) (path : String)
    (hnull : getNestedValue (Value.vdict d) path = some Value.vnull)
    (hnb : path.toList.contains '}' = false)
    (hne : path ≠ "")
    (hstrip : pyStrip path = path) :
    render ("\x7b\x7b" ++ path ++ "\x7d\x7d") (Value.vdict d) =
      some ("[" ++ path ++ "]") := by
  set tpl := "\x7b\x7b" ++ path ++ "\x7d\x7d" with htpl
  have htl : tpl.toList = '{' :: '{' :: (path.toList ++ ['}', '}']) := by
    simp only [htpl]
    rfl
  have hne' : tpl ≠ "" := by
    intro h0
    have h1 := congrArg String.toList h0
    rw [htl] at h1
    cases h1
  have hall : ∀ c ∈ path.toList, (c ≠ '}' : Bool) := by
    intro c hc
    simp only [ne_eq, decide_eq_true_eq]
    intro rfl0
    rw [rfl0] at hc
    have hmem : path.toList.contains '}' = true := List.elem_eq_true_of_mem hc
    rw [hnb] at hmem
    cases hmem
  have htake : (path.toList ++ ['}', '}']).takeWhile (· ≠ '}') = path.toList := by
    rw [takeWhile_append_all _ _ _ hall]
    simp [List.takeWhile]
  have hdrop : (path.toList ++ ['}', '}']).dropWhile (· ≠ '}') = ['}', '}'] := by
    rw [dropWhile_append_all _ _ _ hall]
    simp [List.dropWhile]
  have hrep : replacePlaceholder (Value.vdict d) path.toList =
      some ("[" ++ path ++ "]") := by
    have hmk : (String.mk path.toList) = path := rfl
    simp only [replacePlaceholder, hmk, hstrip]
    rw [show getGo (Value.vdict d) (splitDot path) = some Value.vnull from hnull]
  obtain ⟨c0, cp, hcons⟩ : ∃ c0 cp, path.toList = c0 :: cp := by
    cases hp : path.toList with
    | nil => exact absurd hp (toList_ne_nil_of_ne_empty path hne)
    | cons c0 cp => exact ⟨c0, cp, rfl⟩
  have hstep : scanTpl (Value.vdict d) (path.toList.length + 4)
      ('{' :: '{' :: (path.toList ++ ['}', '}'])) =
      some (("[" ++ path ++ "]").toList) := by
    rw [show path.toList.length + 4 = (path.toList.length + 3) + 1 by omega]
    rw [hcons] at htake hdrop hrep ⊢
    rw [scanTpl]
    simp only [if_pos rfl, htake, hdrop, hrep]
    rw [show (c0 :: cp).length + 3 = ((c0 :: cp).length + 2) + 1 by omega, scanTpl]
    rw [if_pos trivial, if_pos trivial]
    simp
  rw [render, if_neg hne', htl]
  have hlen2 : ('{' :: '{' :: (path.toList ++ ['}', '}'])).length = path.toList.length + 4 := by
    simp
  rw [hlen2, hstep]
  rfl

/-- Witness for C10: slots `\x7b"a": None\x7d` render `\x7b\x7ba\x7d\x7d` as `[a]`. -/
theorem stored_null_renders_as_placeholder_witness :
    render "\x7b\x7ba\x7d\x7d" (Value.vdict [("a", Value.vnull)]) = some "[a]" :=
  stored_null_renders_as_placeholder [("a", Value.vnull)] "a"
    (by decide) (by decide) (by decide) (by decide)

/-- The auto-advance loop can add at most `fuel` steps to its entry count:
kernel-level termination of the `while steps < max_steps` loop. -/
theorem autoLoop_steps_le (flow : List Stage) (flowId : String)
    (acts : String → Dict → String → Dict × Value) (userResp : String) :
    ∀ (fuel : Nat) (active : String) (slots : Dict) (steps : Nat) (events : List String)
      (a : String) (s : Dict) (st : Nat) (ev : List String),
      autoLoop flow flowId acts userResp fuel active slots steps events =
        Except.ok (a, s, st, ev) → st ≤ steps + fuel := by
  intro fuel
  induction fuel with
  | zero =>
    intro active slots steps events a s st ev h
    simp only [autoLoop, Except.ok.injEq, Prod.mk.injEq] at h
    obtain ⟨-, -, h3, -⟩ := h
    omega
  | succ n ih =>
    intro active slots steps events a s st ev h
    rw [autoLoop] at h
    cases hstep : autoStep flow flowId acts userResp active slots events with
    | fail e => rw [hstep] at h; cases h
    | stop ev2 =>
      rw [hstep] at h
      simp only [Except.ok.injEq, Prod.mk.injEq] at h
      obtain ⟨-, -, h3, -⟩ := h
      omega
    | go a2 s2 ev2 =>
      rw [hstep] at h
      have hb := ih _ _ _ _ _ _ _ _ h
      omega

/-- **C2.**  The auto-advance pass of a turn terminates: it performs at most
the configured step budget (`max_auto_advance_steps`, default 50) of
non-interactive stage transitions (the loop is fuel-bounded, hence total),
and when the budget is reached `auto_advance_node` sets a session-level
error whose message includes the configured limit. -/
theorem auto_advance_within_budget (flow : List Stage) (flowId : String)
    (acts : String → Dict → String → Dict × Value) (messages : List Msg)
    (active : String) (slots : Dict) (cursor : List (String × Int))
    (aac : Nat) (maxOpt : Option Nat) (rc : Nat)
    (a : String) (s : Dict) (st : Nat) (ev : List String)
    (h : autoLoop flow flowId acts (lastHumanText messages) (maxOpt.getD 50)
        active slots 0 [] = Except.ok (a, s, st, ev)) :
    st ≤ maxOpt.getD 50 ∧
    (st = maxOpt.getD 50 →
      (autoAdvanceNode flow flowId acts messages active slots cursor aac maxOpt rc).error =
        some ("Auto-advance exceeded max steps (" ++ toString (maxOpt.getD 50) ++ ")")) := by
  have hle := autoLoop_steps_le flow flowId acts (lastHumanText messages)
    (maxOpt.getD 50) active slots 0 [] a s st ev h
  constructor
  · omega
  · intro hst
    simp only [autoAdvanceNode, h]
    rw [if_pos (by omega)]

/-- Witness for C2: a one-stage cyclic flow (`a → a`, no interactive stage)
with the default budget of 50 exhausts it and surfaces the error naming 50. -/
theorem auto_advance_within_budget_witness :
    ∃ a s st ev,
      autoLoop [{ id := "a", type := "message", next := some "a" }] "flowX"
        (fun _ sl _ => (sl, Value.vnull)) (lastHumanText []) ((none : Option Nat).getD 50)
        "a" [] 0 [] = Except.ok (a, s, st, ev) ∧
      st ≤ 50 ∧
      (autoAdvanceNode [{ id := "a", type := "message", next := some "a" }] "flowX"
          (fun _ sl _ => (sl, Value.vnull)) [] "a" [] [] 0 none 0).error =
        some "Auto-advance exceeded max steps (50)" := by
  have hloop : autoLoop [{ id := "a", type := "message", next := some "a" }] "flowX"
      (fun _ sl _ => (sl, Value.vnull)) (lastHumanText []) ((none : Option Nat).getD 50)
      "a" [] 0 [] =
      Except.ok ("a", [], 50, List.replicate 50 "stage_advanced") := by rfl
  have hmain := auto_advance_within_budget
    [{ id := "a", type := "message", next := some "a" }] "flowX"
    (fun _ sl _ => (sl, Value.vnull)) [] "a" [] [] 0 none 0
    "a" [] 50 (List.replicate 50 "stage_advanced") hloop
  exact ⟨"a", [], 50, List.replicate 50 "stage_advanced", hloop, hmain.1,
    hmain.2 rfl⟩

/-- **C7.**  When a pending question is not already in clarification mode and
some `clarify_if` rule's condition matches the user's answer, ingest leaves
the slots unchanged (nothing is written to `save_to`), does not change
`active_stage_id`, marks the pending record `is_clarifying` with the original
answer stashed in `original_answer`, and emits the matching (first firing)
rule's `follow_up` as the next bot message. -/
theorem ingest_clarify_requested (flow : List Stage) (flowId : String)
    (messages : List Msg) (userText : String) (stage : Stage) (pend : Pending)
    (slots : Dict) (active : String) (cursor : List (String × Int)) (rc : Nat)
    (cond fu : String)
    (hlast : messages.getLast? = some (Msg.human userText))
    (hstage : getStage flow active = some stage)
    (hsv : pend.has_save_to = true)
    (hnc : pend.is_clarifying = false)
    (hfc : firstClarify userText pend.clarify_if = some (cond, fu))
    (hfu : fu ≠ "") :
    ingestUserAnswerNode flow flowId messages (some pend) slots active cursor rc =
      { messages := [fu],
        events := ["clarify_requested"],
        pending := some (some { pend with is_clarifying := true,
                                          original_answer := some userText }),
        slots := some slots,
        question_cursor := some cursor } := by
  simp only [ingestUserAnswerNode, hlast, hstage, hsv, hnc, hfc, if_pos hfu,
    Bool.false_eq_true, if_false, if_true]

/-- Witness for C7: an `empty_or_too_short` rule fires on the answer `"ok"`
and the rule's follow-up is emitted with the original answer stashed. -/
theorem ingest_clarify_requested_witness :
    ingestUserAnswerNode
      [{ id := "q", type := "questions", next := some "nxt",
         questions := [{ ask := "Describe the process." }] }]
      "flowX" [Msg.human "ok"]
      (some { has_save_to := true, save_to := some "a.b",
              clarify_if := [{ condition := some "empty_or_too_short",
                               follow_up := some "Please provide more detail." }],
              question_index := some 0 })
      [("a", Value.vdict [])] "q" [] 0 =
      { messages := ["Please provide more detail."],
        events := ["clarify_requested"],
        pending := some (some { has_save_to := true, save_to := some "a.b",
                                clarify_if := [{ condition := some "empty_or_too_short",
                                                 follow_up := some "Please provide more detail." }],
                                question_index := some 0, is_clarifying := true,
                                original_answer := some "ok" }),
        slots := some [("a", Value.vdict [])],
        question_cursor := some [] } :=
  ingest_clarify_requested
    [{ id := "q", type := "questions", next := some "nxt",
       questions := [{ ask := "Describe the process." }] }]
    "flowX" [Msg.human "ok"] "ok"
    { id := "q", type := "questions", next := some "nxt",
      questions := [{ ask := "Describe the process." }] }
    { has_save_to := true, save_to := some "a.b",
      clarify_if := [{ condition := some "empty_or_too_short",
                       follow_up := some "Please provide more detail." }],
      question_index := some 0 }
    [("a", Value.vdict [])] "q" [] 0
    "empty_or_too_short" "Please provide more detail."
    rfl rfl rfl rfl (by decide) (by decide)

/-- **C3 (counterexample).**  The claim says that after ingesting the answer
to a `questions` stage's *last* question the QuestionCursor entry for that
stage is "cleared (removed)".  In the code
(`question_cursor[active_stage_id] = next_idx`, interview_nodes.py line 226)
the entry is *kept* and set to the question count: for a 3-question stage
with the cursor at index 2, the resulting cursor still maps `"q"` to `3`. -/
theorem ingest_cursor_entry_not_removed_ce :
    (ingestUserAnswerNode
        [{ id := "q", type := "questions", next := some "nxt",
           questions := [{ ask := "a?" }, { ask := "b?" }, { ask := "c?" }] }]
        "flowX" [Msg.human "final answer"]
        (some { has_save_to := true, save_to := some "ans.third",
                question_index := some 2 })
        [] "q" [("q", 2)] 0).question_cursor = some [("q", 3)] ∧
    cursorGet [("q", 3)] "q" = some 3 := by
  exact ⟨by rfl, by rfl⟩

/-- **C3 (amended).**  When ingest writes the answer to the last question of a
`questions` stage (`question_index` at the final index), the session
transitions `active_stage_id` to the stage's `next`, pending becomes `None`,
and the QuestionCursor entry for the stage is *set to the question count*
(one past the last index) rather than removed; when questions remain, the
cursor advances by one and the session stays on the same stage. -/
theorem ingest_questions_stage_advance (flow : List Stage) (flowId : String)
    (messages : List Msg) (userText : String) (stage : Stage) (pend : Pending)
    (slots slots' : Dict) (active : String) (cursor : List (String × Int))
    (rc : Nat) (i : Int) (p : String)
    (hlast : messages.getLast? = some (Msg.human userText))
    (hstage : getStage flow active = some stage)
    (hty : stage.type = "questions")
    (hsv : pend.has_save_to = true)
    (hpath : pend.save_to = some p)
    (hnc : pend.is_clarifying = false)
    (hno : firstClarify userText pend.clarify_if = none)
    (hidx : pend.question_index = some i)
    (hw : write slots (some p) (Value.vstr userText) = some slots') :
    (i + 1 < (stage.questions.length : Int) →
      ingestUserAnswerNode flow flowId messages (some pend) slots active cursor rc =
        { slots := some slots', pending := some none,
          events := ["answer_ingested"],
          question_cursor := some (cursorSet cursor active (i + 1)) }) ∧
    ((stage.questions.length : Int) ≤ i + 1 →
      ingestUserAnswerNode flow flowId messages (some pend) slots active cursor rc =
        { slots := some slots', pending := some none,
          active_stage_id := some (stage.next.getD "end"),
          events := ["answer_ingested"],
          question_cursor := some (cursorSet cursor active (i + 1)) }) := by
  have hbody : ingestUserAnswerNode flow flowId messages (some pend) slots active cursor rc =
      ingestAdvance stage pend active cursor slots' := by
    simp only [ingestUserAnswerNode, hlast, hstage, hsv, hnc, hno, hpath, hw,
      Bool.false_eq_true, if_false, if_true]
  constructor
  · intro hlt
    rw [hbody]
    simp only [ingestAdvance, hty, hidx, Option.getD_some, if_true]
    rw [if_pos hlt]
  · intro hge
    rw [hbody]
    simp only [ingestAdvance, hty, hidx, Option.getD_some, if_true]
    rw [if_neg (by omega)]

/-- Witness for C3 (amended), exercising both branches: a 3-question stage
with the cursor at the last index transitions to `"nxt"` with the cursor
entry set to 3; the same stage at index 0 stays (no `active_stage_id` update)
with the cursor advanced to 1. -/
theorem ingest_questions_stage_advance_witness :
    (ingestUserAnswerNode
        [{ id := "q", type := "questions", next := some "nxt",
           questions := [{ ask := "a?" }, { ask := "b?" }, { ask := "c?" }] }]
        "flowX" [Msg.human "final answer"]
        (some { has_save_to := true, save_to := some "ans.third",
                question_index := some 2 })
        [] "q" [("q", 2)] 0 =
      { slots := some [("ans", Value.vdict [("third", Value.vstr "final answer")])],
        pending := some none,
        active_stage_id := some "nxt",
        events := ["answer_ingested"],
        question_cursor := some (cursorSet [("q", 2)] "q" 3) }) ∧
    (ingestUserAnswerNode
        [{ id := "q", type := "questions", next := some "nxt",
           questions := [{ ask := "a?" }, { ask := "b?" }, { ask := "c?" }] }]
        "flowX" [Msg.human "first"]
        (some { has_save_to := true, save_to := some "ans.first",
                question_index := some 0 })
        [] "q" [] 0 =
      { slots := some [("ans", Value.vdict [("first", Value.vstr "first")])],
        pending := some none,
        events := ["answer_ingested"],
        question_cursor := some (cursorSet [] "q" 1) }) := by
  constructor
  · exact (ingest_questions_stage_advance
      [{ id := "q", type := "questions", next := some "nxt",
         questions := [{ ask := "a?" }, { ask := "b?" }, { ask := "c?" }] }]
      "flowX" [Msg.human "final answer"] "final answer"
      { id := "q", type := "questions", next := some "nxt",
        questions := [{ ask := "a?" }, { ask := "b?" }, { ask := "c?" }] }
      { has_save_to := true, save_to := some "ans.third", question_index := some 2 }
      [] [("ans", Value.vdict [("third", Value.vstr "final answer")])]
      "q" [("q", 2)] 0 2 "ans.third"
      rfl rfl rfl rfl rfl rfl (by decide) rfl (by rfl)).2 (by decide)
  · exact (ingest_questions_stage_advance
      [{ id := "q", type := "questions", next := some "nxt",
         questions := [{ ask := "a?" }, { ask := "b?" }, { ask := "c?" }] }]
      "flowX" [Msg.human "first"] "first"
      { id := "q", type := "questions", next := some "nxt",
        questions := [{ ask := "a?" }, { ask := "b?" }, { ask := "c?" }] }
      { has_save_to := true, save_to := some "ans.first", question_index := some 0 }
      [] [("ans", Value.vdict [("first", Value.vstr "first")])]
      "q" [] 0 0 "ans.first"
      rfl rfl rfl rfl rfl rfl (by decide) rfl (by rfl)).1 (by decide)

/-- **C6 (counterexample).**  The claim promises the forced advance for
*every* session whose recent bot history repeats a long message 3 or more
times within the inspection window, but `_detect_loop` additionally requires
at least 6 total messages: with only 5 messages (3 identical long bot
prompts interleaved with 2 user replies) the detector stays quiet and the
render node re-renders the stuck prompt a 4th time instead of advancing. -/
theorem render_loop_not_detected_ce :
    (recentAIWindow
        [Msg.ai "What is the process name, please?", Msg.human "x",
         Msg.ai "What is the process name, please?", Msg.human "y",
         Msg.ai "What is the process name, please?"]).count
      "What is the process name, please?" = 3 ∧
    20 < ("What is the process name, please?").length ∧
    renderPromptNode
        [{ id := "q", type := "questions", next := some "nxt",
           questions := [{ ask := "What is the process name, please?",
                           save_to := some "a.b" }] }]
        "flowX"
        [Msg.ai "What is the process name, please?", Msg.human "x",
         Msg.ai "What is the process name, please?", Msg.human "y",
         Msg.ai "What is the process name, please?"]
        "q" [] [] 0 =
      { messages := ["What is the process name, please?"],
        pending := some (some { has_save_to := true, save_to := some "a.b",
                                ask := "What is the process name, please?",
                                question_index := some 0 }),
        events := ["prompt_rendered"] } := by
  exact ⟨by rfl, by decide, by rfl⟩

/-- **C6 (amended).**  Provided the session history holds at least 6 messages,
if some single (stripped) bot message longer than 20 characters appears 3 or
more times within the bounded inspection window (the up to 10 most recent bot
messages among the last 20 messages), the next render call does not
re-render: it forces `active_stage_id` to the current stage's `next`, clears
pending, and emits the short generic transition message. -/
theorem render_forces_advance_on_loop (flow : List Stage) (flowId : String)
    (messages : List Msg) (active : String) (slots : Dict)
    (cursor : List (String × Int)) (rc : Nat) (stage : Stage) (m : String)
    (hlen : 6 ≤ messages.length)
    (hcount : 3 ≤ (recentAIWindow messages).count m)
    (hlong : 20 < m.length)
    (hstage : getStage flow active = some stage) :
    renderPromptNode flow flowId messages active slots cursor rc =
      { messages := ["Thanks — moving on."], pending := some none,
        active_stage_id := some (stage.next.getD "end"),
        events := ["loop_detected_force_advance"] } := by
  have hmem : m ∈ recentAIWindow messages :=
    List.count_pos_iff.mp (by omega)
  have hwl : ¬ (recentAIWindow messages).length < 3 := by
    have := List.count_le_length m (recentAIWindow messages)
    omega
  have hdet : detectLoop messages = true := by
    rw [detectLoop, if_neg (by omega), if_neg hwl]
    refine List.any_eq_true.mpr ⟨m, hmem, ?_⟩
    rw [decide_eq_true hlong, decide_eq_true hcount]
    rfl
  simp only [renderPromptNode, hdet, hstage, if_true]

/-- Witness for C6 (amended): 6 messages with the long question repeated 3
times force the transition to `"nxt"`. -/
theorem render_forces_advance_on_loop_witness :
    renderPromptNode
        [{ id := "q", type := "questions", next := some "nxt",
           questions := [{ ask := "What is the process name, please?",
                           save_to := some "a.b" }] }]
        "flowX"
        [Msg.ai "What is the process name, please?", Msg.human "x",
         Msg.ai "What is the process name, please?", Msg.human "y",
         Msg.ai "What is the process name, please?", Msg.human "z"]
        "q" [] [] 0 =
      { messages := ["Thanks — moving on."], pending := some none,
        active_stage_id := some "nxt",
        events := ["loop_detected_force_advance"] } :=
  render_forces_advance_on_loop
    [{ id := "q", type := "questions", next := some "nxt",
       questions := [{ ask := "What is the process name, please?",
                       save_to := some "a.b" }] }]
    "flowX"
    [Msg.ai "What is the process name, please?", Msg.human "x",
     Msg.ai "What is the process name, please?", Msg.human "y",
     Msg.ai "What is the process name, please?", Msg.human "z"]
    "q" [] [] 0
    { id := "q", type := "questions", next := some "nxt",
      questions := [{ ask := "What is the process name, please?",
                      save_to := some "a.b" }] }
    "What is the process name, please?"
    (by decide) (by decide) (by decide) rfl

/-! ### Path-grammar helper lemmas -/

theorem contains_append (l1 l2 : List Char) (c : Char) :
    (l1 ++ l2).contains c = (l1.contains c || l2.contains c) := by
  induction l1 with
  | nil => simp
  | cons a as ih => simp [List.contains_cons, ih, Bool.or_assoc]

theorem splitChar_of_not_contains (sep : Char) (l : List Char)
    (h : l.contains sep = false) : splitChar sep l = [l] := by
  induction l with
  | nil => rfl
  | cons c cs ih =>
    simp only [List.contains_cons, Bool.or_eq_false_iff] at h
    have hc : ¬ (c = sep) := by
      intro he
      rw [he] at h
      have h1 := h.1
      simp at h1
    rw [splitChar, ih h.2]
    simp [hc]

theorem splitChar_append_sep (sep : Char) (l1 l2 : List Char)
    (h : l1.contains sep = false) :
    splitChar sep (l1 ++ sep :: l2) = l1 :: splitChar sep l2 := by
  induction l1 with
  | nil =>
    rw [List.nil_append, splitChar]
    simp
  | cons c cs ih =>
    simp only [List.contains_cons, Bool.or_eq_false_iff] at h
    have hc : ¬ (c = sep) := by
      intro he
      rw [he] at h
      have h1 := h.1
      simp at h1
    rw [List.cons_append, splitChar, ih h.2]
    simp [hc]

theorem toList_append_eq (a b : String) : (a ++ b).toList = a.toList ++ b.toList := rfl

/-- Reduction of the single-bracket-segment read once the segment split is
known. -/
theorem getGo_bracket_single (d : Dict) (seg key idxRaw : String)
    (hc1 : strContains seg '[' = true) (hc2 : strContains seg ']' = true)
    (hsplit : (splitChar '[' seg.toList).map (fun cs => (⟨cs⟩ : String)) = [key, idxRaw]) :
    getGo (Value.vdict d) [seg] =
      (let idxStr := pyRstrip ']' idxRaw
       let idxOpt : Option Value :=
         if idxStr = "current" then siblingIdx (Value.vdict d) key
         else (pyInt idxStr).map Value.vint
       match idxOpt with
       | none => some Value.vnull
       | some idxV =>
         match pyGet d key, idxAsInt idxV with
         | Value.vlist items, some idx =>
           if h : 0 ≤ idx ∧ idx < items.length then
             getGo (items.get ⟨idx.toNat, by omega⟩) []
           else some Value.vnull
         | _, _ => some Value.vnull) := by
  rw [getGo, if_neg (fun h => Value.noConfusion h), hc1, hc2]
  rw [if_pos (show ((true && true) = true) from rfl), hsplit]

/-- Reduction of the single-bracket-segment write once the segment split is
known. -/
theorem writeGo_bracket_single (d : Dict) (seg key idxRaw : String) (v : Value)
    (hc1 : strContains seg '[' = true) (hc2 : strContains seg ']' = true)
    (hsplit : (splitChar '[' seg.toList).map (fun cs => (⟨cs⟩ : String)) = [key, idxRaw]) :
    writeGo (Value.vdict d) [seg] v =
      (let idxStr := pyRstrip ']' idxRaw
       match resolveIndexW idxStr key (Value.vdict d) with
       | RRes.verr => some (Value.vdict d)
       | RRes.exc => none
       | RRes.ok idxV =>
         let d1 := if dhas d key then d else dset d key (Value.vlist [])
         match idxAsInt idxV with
         | none => none
         | some idx =>
           match pyGet d1 key with
           | Value.vlist l =>
             let l1 := if 0 ≤ idx then extendTo l Value.vnull idx.toNat else l
             match pyPos l1.length idx with
             | none => none
             | some pos => some (Value.vdict (dset d1 key (Value.vlist (l1.set pos v))))
           | _ => none) := by
  rw [writeGo, hc1, hc2]
  rw [if_pos (show ((true && true) = true) from rfl), hsplit]

/-- **C5 (counterexample).**  The claim says a write through `[current]`
whose resolved index is out of bounds leaves the data unchanged.  With
`\x7b"lst": ["x"], "lst_current_index": 5\x7d` the read of `lst[current]` is indeed
absent, but the write *extends* the list with `None` placeholders and stores
the value at index 5 — the structure changes. -/
theorem write_current_out_of_bounds_ce :
    getNestedValue
        (Value.vdict [("lst", Value.vlist [Value.vstr "x"]),
                      ("lst_current_index", Value.vint 5)])
        "lst[current]" = some Value.vnull ∧
    write [("lst", Value.vlist [Value.vstr "x"]), ("lst_current_index", Value.vint 5)]
        (some "lst[current]") (Value.vstr "v") =
      some [("lst", Value.vlist [Value.vstr "x", Value.vnull, Value.vnull, Value.vnull,
                                 Value.vnull, Value.vstr "v"]),
            ("lst_current_index", Value.vint 5)] ∧
    ([("lst", Value.vlist [Value.vstr "x", Value.vnull, Value.vnull, Value.vnull,
                           Value.vnull, Value.vstr "v"]),
      ("lst_current_index", Value.vint 5)] : Dict) ≠
      [("lst", Value.vlist [Value.vstr "x"]), ("lst_current_index", Value.vint 5)] := by
  refine ⟨by rfl, by rfl, by decide⟩

/-- **C5 (amended).**  For a `key[current]` segment addressed at an existing
innermost mapping: if neither sibling index key
(`current_<key.rstrip 's'>_index` nor `key_current_index`) exists, the read
returns absent and the write leaves the mapping unchanged (silent no-op, no
exception); if the sibling resolves to an out-of-bounds index for the target
list, the read returns absent — the write, however, extends the list instead
of no-opping (see the counterexample). -/
theorem current_index_leniency (d : Dict) (key : String) (v : Value)
    (hkb : key.toList.contains '[' = false)
    (hkd : key.toList.contains '.' = false) :
    (dhas d ("current_" ++ pyRstrip 's' key ++ "_index") = false →
     dhas d (key ++ "_current_index") = false →
     getNestedValue (Value.vdict d) (key ++ "[current]") = some Value.vnull ∧
     write d (some (key ++ "[current]")) v = some d) ∧
    (∀ (l : List Value) (i : Int),
      dlookup d ("current_" ++ pyRstrip 's' key ++ "_index") = some (Value.vint i) →
      dlookup d key = some (Value.vlist l) →
      (i < 0 ∨ (l.length : Int) ≤ i) →
      getNestedValue (Value.vdict d) (key ++ "[current]") = some Value.vnull) := by
  have hseglist : (key ++ "[current]").toList = key.toList ++ '[' :: "current]".toList := rfl
  have hnodot : (key ++ "[current]").toList.contains '.' = false := by
    rw [hseglist, contains_append, hkd]
    decide
  have hsd : splitDot (key ++ "[current]") = [key ++ "[current]"] := by
    rw [splitDot, splitChar_of_not_contains '.' _ hnodot]
    rfl
  have hc1 : strContains (key ++ "[current]") '[' = true := by
    rw [strContains, hseglist, contains_append]
    simp [List.contains_cons]
  have hc2 : strContains (key ++ "[current]") ']' = true := by
    rw [strContains, hseglist, contains_append]
    have : ('[' :: "current]".toList).contains ']' = true := by decide
    rw [this, Bool.or_true]
  have hsplit : (splitChar '[' (key ++ "[current]").toList).map
      (fun cs => (⟨cs⟩ : String)) = [key, "current]"] := by
    rw [hseglist, splitChar_append_sep '[' _ _ hkb,
      splitChar_of_not_contains '[' _ (by decide)]
    rfl
  have hrstrip : pyRstrip ']' "current]" = "current" := by decide
  have hne : key ++ "[current]" ≠ "" := by
    intro h0
    have h1 := congrArg String.toList h0
    rw [hseglist] at h1
    cases hkl : key.toList with
    | nil => rw [hkl] at h1; cases h1
    | cons a as => rw [hkl] at h1; cases h1
  constructor
  · intro ha1 ha2
    constructor
    · rw [getNestedValue, hsd, getGo_bracket_single d _ key "current]" hc1 hc2 hsplit]
      simp only [hrstrip, if_pos rfl, siblingIdx, ha1, ha2, Bool.false_eq_true, if_false]
      rw [if_pos trivial]
    · rw [write]
      rw [if_neg hne, hsd, writeGo_bracket_single d _ key "current]" v hc1 hc2 hsplit]
      have hres : resolveIndexW "current" key (Value.vdict d) = RRes.verr := by
        rw [resolveIndexW]
        simp [ha1, ha2]
      simp only [hrstrip, hres]
  · intro l i hi hk hoob
    rw [getNestedValue, hsd, getGo_bracket_single d _ key "current]" hc1 hc2 hsplit]
    have hsib : siblingIdx (Value.vdict d) key = some (Value.vint i) := by
      rw [siblingIdx]
      simp only [dhas, hi, Option.isSome_some, if_true, pyGet, Option.getD_some]
    simp only [hrstrip, if_pos rfl, hsib]
    rw [if_pos trivial]
    simp only [pyGet, hk, Option.getD_some, idxAsInt]
    rw [dif_neg (by omega)]

/-- Witness for C5 (amended): no sibling key in an empty dict (part a), and a
sibling index 5 against a 1-element list (part b). -/
theorem current_index_leniency_witness :
    (getNestedValue (Value.vdict []) "a[current]" = some Value.vnull ∧
     write [] (some "a[current]") (Value.vstr "x") = some []) ∧
    getNestedValue
        (Value.vdict [("current_lst_index", Value.vint 5),
                      ("lst", Value.vlist [Value.vstr "x"])])
        "lst[current]" = some Value.vnull := by
  constructor
  · exact (current_index_leniency [] "a" (Value.vstr "x") (by decide) (by decide)).1
      (by decide) (by decide)
  · exact (current_index_leniency
      [("current_lst_index", Value.vint 5), ("lst", Value.vlist [Value.vstr "x"])]
      "lst" (Value.vstr "x") (by decide) (by decide)).2
      [Value.vstr "x"] 5 (by decide) (by decide) (by decide)

/-! ### Plain (bracket-free) path lemmas for the write/read round-trip -/

theorem dlookup_dset_self (d : Dict) (k : String) (v : Value) :
    dlookup (dset d k v) k = some v := by
  induction d with
  | nil => simp [dset, dlookup]
  | cons e rest ih =>
    obtain ⟨k1, v1⟩ := e
    by_cases hk : k1 = k
    · simp [dset, dlookup, hk]
    · simp [dset, dlookup, hk, ih]

/-- Python `None` is absorbing for the read: every further segment keeps
returning `None`. -/
theorem getGo_vnull (parts : List String) (hne : parts ≠ []) :
    getGo Value.vnull parts = some Value.vnull := by
  cases parts with
  | nil => exact absurd rfl hne
  | cons p rest => rfl

/-- Reduction of a plain (no-`[`) segment read on a dict. -/
theorem getGo_plain_cons (d : Dict) (part : String) (rest : List String)
    (hpl : part.toList.contains '[' = false) :
    getGo (Value.vdict d) (part :: rest) = getGo (pyGet d part) rest := by
  rw [getGo, if_neg (fun h => Value.noConfusion h),
    show strContains part '[' = false from hpl]
  simp

/-- Reduction of a plain final-segment write on a dict. -/
theorem writeGo_plain_final (d : Dict) (part : String) (v : Value)
    (hpl : part.toList.contains '[' = false) :
    writeGo (Value.vdict d) [part] v =
      (match dlookup d part with
       | some (Value.vlist l) =>
         if isListV v then some (Value.vdict (dset d part v))
         else some (Value.vdict (dset d part (Value.vlist (l ++ [v]))))
       | _ => some (Value.vdict (dset d part v))) := by
  rw [writeGo, show strContains part '[' = false from hpl]
  simp only [Bool.false_and, Bool.false_eq_true, if_false]

/-- Reduction of a plain intermediate-segment write on a dict. -/
theorem writeGo_plain_step (d : Dict) (part q : String) (rest2 : List String)
    (v : Value) (hpl : part.toList.contains '[' = false) :
    writeGo (Value.vdict d) (part :: q :: rest2) v =
      (match dlookup d part with
       | none =>
         match writeGo
             (if q ≠ "" && strContains q '[' then Value.vlist [] else Value.vdict [])
             (q :: rest2) v with
         | none => none
         | some child2 => some (Value.vdict (dset d part child2))
       | some sub =>
         match writeGo sub (q :: rest2) v with
         | none => none
         | some sub2 => some (Value.vdict (dset d part sub2))) := by
  rw [writeGo, show strContains part '[' = false from hpl]
  · simp only [Bool.false_and, Bool.false_eq_true, if_false, List.headD_cons]
  · intro h0
    cases h0

/-- The bracket-or-not shape condition used by the round-trip theorems: every
segment of the split path is a plain key (contains no `[`). -/
def allPlain (parts : List String) : Bool :=
  parts.all (fun p => !(p.toList.contains '['))

/-- Pre-existing intermediate containers along a plain path are mappings (or
absent); the root is a mapping. -/
def dictPathOk : Value → List String → Bool
  | Value.vdict _, [] => true
  | Value.vdict _, [_] => true
  | Value.vdict d, p :: rest =>
    match dlookup d p with
    | none => true
    | some u => dictPathOk u rest
  | _, _ => false

theorem dictPathOk_empty_dict (rest : List String) :
    dictPathOk (Value.vdict []) rest = true := by
  cases rest with
  | nil => rfl
  | cons q rest2 =>
    cases rest2 with
    | nil => rfl
    | cons r rest3 => simp [dictPathOk, dlookup]

/-- Reading any nonempty plain path out of the empty dict gives `None`. -/
theorem getGo_empty_dict (parts : List String) (hne : parts ≠ [])
    (hplain : allPlain parts = true) :
    getGo (Value.vdict []) parts = some Value.vnull := by
  cases parts with
  | nil => exact absurd rfl hne
  | cons p rest =>
    simp only [allPlain, List.all_cons, Bool.and_eq_true, Bool.not_eq_true'] at hplain
    rw [getGo_plain_cons [] p rest hplain.1]
    cases rest with
    | nil => rfl
    | cons q rest2 => exact getGo_vnull (q :: rest2) (by simp)

theorem splitChar_ne_nil (sep : Char) (l : List Char) : splitChar sep l ≠ [] := by
  induction l with
  | nil => simp [splitChar]
  | cons c cs ih =>
    rw [splitChar]
    cases hs : splitChar sep cs with
    | nil => exact absurd hs ih
    | cons h t => by_cases hc : c = sep <;> simp [hc]

theorem splitDot_ne_nil (s : String) : splitDot s ≠ [] := by
  rw [splitDot]
  intro h
  exact splitChar_ne_nil '.' s.toList (List.map_eq_nil_iff.mp h)

/-- Core of the round-trip: along a plain path whose pre-existing
intermediates are mappings (or absent) and whose pre-existing leaf is not a
list, the write lands the value and the read returns it. -/
theorem writeGo_plain_roundtrip (v : Value) :
    ∀ (parts : List String) (cur : Dict),
      parts ≠ [] →
      allPlain parts = true →
      dictPathOk (Value.vdict cur) parts = true →
      isListV ((getGo (Value.vdict cur) parts).getD Value.vnull) = false →
      ∃ cur', writeGo (Value.vdict cur) parts v = some (Value.vdict cur') ∧
        getGo (Value.vdict cur') parts = some v := by
  intro parts
  induction parts with
  | nil =>
    intro cur h
    exact absurd rfl h
  | cons p rest ih =>
    intro cur _ hplain hdict hleaf
    simp only [allPlain, List.all_cons, Bool.and_eq_true, Bool.not_eq_true'] at hplain
    obtain ⟨hp, hrest⟩ := hplain
    cases rest with
    | nil =>
      rw [getGo_plain_cons cur p [] hp] at hleaf
      cases hl : dlookup cur p with
      | none =>
        refine ⟨dset cur p v, ?_, ?_⟩
        · rw [writeGo_plain_final cur p v hp, hl]
        · rw [getGo_plain_cons _ p [] hp]
          simp [pyGet, dlookup_dset_self, getGo]
      | some u =>
        have hleaf' : isListV u = false := by
          simpa [getGo, pyGet, hl] using hleaf
        have hw : writeGo (Value.vdict cur) [p] v =
            some (Value.vdict (dset cur p v)) := by
          rw [writeGo_plain_final cur p v hp, hl]
          cases u with
          | vlist l => simp [isListV] at hleaf'
          | vnull => rfl
          | vbool b => rfl
          | vint n => rfl
          | vstr s => rfl
          | vdict dd => rfl
        refine ⟨dset cur p v, hw, ?_⟩
        rw [getGo_plain_cons _ p [] hp]
        simp [pyGet, dlookup_dset_self, getGo]
    | cons q rest2 =>
      have hrest' : allPlain (q :: rest2) = true := hrest
      rw [getGo_plain_cons cur p (q :: rest2) hp] at hleaf
      have hq : q.toList.contains '[' = false := by
        simp only [allPlain, List.all_cons, Bool.and_eq_true, Bool.not_eq_true'] at hrest'
        exact hrest'.1
      cases hl : dlookup cur p with
      | none =>
        have hchild : (if q ≠ "" && strContains q '[' then Value.vlist []
            else Value.vdict []) = Value.vdict [] := by
          rw [show strContains q '[' = false from hq]
          simp
        obtain ⟨sub', hwsub, hrsub⟩ := ih [] (by simp) hrest
          (dictPathOk_empty_dict _)
          (by rw [getGo_empty_dict _ (by simp) hrest]; rfl)
        refine ⟨dset cur p (Value.vdict sub'), ?_, ?_⟩
        · rw [writeGo_plain_step cur p q rest2 v hp, hl]
          simp only [hchild, hwsub]
        · rw [getGo_plain_cons _ p (q :: rest2) hp]
          simp only [pyGet, dlookup_dset_self, Option.getD_some]
          exact hrsub
      | some u =>
        have hd2 : dictPathOk u (q :: rest2) = true := by
          simp only [dictPathOk, hl] at hdict
          exact hdict
        obtain ⟨ud, rfl⟩ : ∃ ud, u = Value.vdict ud := by
          cases u with
          | vdict ud => exact ⟨ud, rfl⟩
          | vnull => simp [dictPathOk] at hd2
          | vbool b => simp [dictPathOk] at hd2
          | vint n => simp [dictPathOk] at hd2
          | vstr s => simp [dictPathOk] at hd2
          | vlist l => simp [dictPathOk] at hd2
        have hleaf2 : isListV ((getGo (Value.vdict ud) (q :: rest2)).getD Value.vnull) =
            false := by
          simpa [pyGet, hl] using hleaf
        obtain ⟨sub', hwsub, hrsub⟩ := ih ud (by simp) hrest hd2 hleaf2
        refine ⟨dset cur p (Value.vdict sub'), ?_, ?_⟩
        · rw [writeGo_plain_step cur p q rest2 v hp, hl]
          simp only [hwsub]
        · rw [getGo_plain_cons _ p (q :: rest2) hp]
          simp only [pyGet, dlookup_dset_self, Option.getD_some]
          exact hrsub

/-- **C4 (counterexample).**  Universally the claim fails: for `slots = \x7b\x7d`
and path `a[current]` the pre-existing value is absent (not a list) and the
written value is a scalar, yet write-then-read does not return the value:
the unresolvable `[current]` makes the write a silent no-op and the read
absent. -/
theorem write_read_roundtrip_ce :
    isListV ((getGo (Value.vdict []) (splitDot "a[current]")).getD Value.vnull) = false ∧
    isListV (Value.vstr "x") = false ∧
    write [] (some "a[current]") (Value.vstr "x") = some [] ∧
    getNestedValue (Value.vdict []) "a[current]" = some Value.vnull ∧
    some Value.vnull ≠ some (Value.vstr "x") := by
  refine ⟨by rfl, by rfl, by rfl, by rfl, by decide⟩

/-- **C4 (amended).**  For every slots mapping, scalar value and *plain* path
(every dot-segment bracket-free) whose pre-existing intermediate values are
mappings (or absent) and whose pre-existing leaf value is not a list (the
non-append-ambiguous case), `SlotWriter.write` followed by a read of the same
path returns the written value. -/
theorem write_then_read_roundtrip (d : Dict) (path : String) (v : Value)
    (hne : path ≠ "")
    (hplain : allPlain (splitDot path) = true)
    (hdict : dictPathOk (Value.vdict d) (splitDot path) = true)
    (hleaf : isListV ((getGo (Value.vdict d) (splitDot path)).getD Value.vnull) = false)
    (hv : isListV v = false) :
    ∃ d', write d (some path) v = some d' ∧
      getGo (Value.vdict d') (splitDot path) = some v := by
  obtain ⟨cur', hw, hr⟩ := writeGo_plain_roundtrip v (splitDot path) d
    (splitDot_ne_nil path) hplain hdict hleaf
  refine ⟨cur', ?_, hr⟩
  rw [write, if_neg hne, hw]

/-- Witness for C4 at `slots = \x7b"a": \x7b"k": 1\x7d\x7d`, path `a.b.c`, value `"5"`:
the write vivifies `b` and the read returns `"5"`. -/
theorem write_then_read_roundtrip_witness :
    ∃ d', write [("a", Value.vdict [("k", Value.vint 1)])] (some "a.b.c")
        (Value.vstr "5") = some d' ∧
      getGo (Value.vdict d') (splitDot "a.b.c") = some (Value.vstr "5") :=
  write_then_read_roundtrip [("a", Value.vdict [("k", Value.vint 1)])] "a.b.c"
    (Value.vstr "5") (by decide) (by rfl) (by rfl) (by rfl) (by rfl)

/-- A plain-segment read on a non-dict, non-null container returns `None`. -/
theorem getGo_plain_cons_nondict (u : Value) (part : String) (rest : List String)
    (hpl : part.toList.contains '[' = false)
    (h1 : u ≠ Value.vnull) (h2 : ∀ dd, u ≠ Value.vdict dd) :
    getGo u (part :: rest) = some Value.vnull := by
  cases u with
  | vdict dd => exact absurd rfl (h2 dd)
  | vnull => exact absurd rfl h1
  | vbool b =>
    rw [getGo, if_neg h1, show strContains part '[' = false from hpl]
    · simp
    · intro a ha
      cases ha
  | vint n =>
    rw [getGo, if_neg h1, show strContains part '[' = false from hpl]
    · simp
    · intro a ha
      cases ha
  | vstr s =>
    rw [getGo, if_neg h1, show strContains part '[' = false from hpl]
    · simp
    · intro a ha
      cases ha
  | vlist l =>
    rw [getGo, if_neg h1, show strContains part '[' = false from hpl]
    · simp
    · intro a ha
      cases ha

/-- Core of the append property: along a plain path whose current value is a
list, the write appends the (non-list) value and the read returns the grown
list. -/
theorem writeGo_plain_append (v : Value) (hv : isListV v = false) :
    ∀ (parts : List String) (cur : Dict) (l : List Value),
      parts ≠ [] →
      allPlain parts = true →
      getGo (Value.vdict cur) parts = some (Value.vlist l) →
      ∃ cur', writeGo (Value.vdict cur) parts v = some (Value.vdict cur') ∧
        getGo (Value.vdict cur') parts = some (Value.vlist (l ++ [v])) := by
  intro parts
  induction parts with
  | nil =>
    intro cur l h
    exact absurd rfl h
  | cons p rest ih =>
    intro cur l _ hplain hread
    simp only [allPlain, List.all_cons, Bool.and_eq_true, Bool.not_eq_true'] at hplain
    obtain ⟨hp, hrest⟩ := hplain
    cases rest with
    | nil =>
      rw [getGo_plain_cons cur p [] hp] at hread
      have hpg : pyGet cur p = Value.vlist l := by
        have : getGo (pyGet cur p) [] = some (pyGet cur p) := rfl
        rw [this] at hread
        exact Option.some.inj hread
      have hl : dlookup cur p = some (Value.vlist l) := by
        rw [pyGet] at hpg
        cases hlk : dlookup cur p with
        | none => rw [hlk] at hpg; cases hpg
        | some w => rw [hlk] at hpg; simp at hpg; rw [hpg]
      refine ⟨dset cur p (Value.vlist (l ++ [v])), ?_, ?_⟩
      · rw [writeGo_plain_final cur p v hp, hl]
        simp [hv]
      · rw [getGo_plain_cons _ p [] hp]
        simp [pyGet, dlookup_dset_self, getGo]
    | cons q rest2 =>
      rw [getGo_plain_cons cur p (q :: rest2) hp] at hread
      have hq : q.toList.contains '[' = false := by
        simp only [allPlain, List.all_cons, Bool.and_eq_true, Bool.not_eq_true'] at hrest
        exact hrest.1
      cases hlk : dlookup cur p with
      | none =>
        exfalso
        have : pyGet cur p = Value.vnull := by simp [pyGet, hlk]
        rw [this, getGo_vnull (q :: rest2) (by simp)] at hread
        cases hread
      | some u =>
        have hpg : pyGet cur p = u := by simp [pyGet, hlk]
        rw [hpg] at hread
        obtain ⟨ud, rfl⟩ : ∃ ud, u = Value.vdict ud := by
          cases u with
          | vdict ud => exact ⟨ud, rfl⟩
          | vnull =>
            rw [getGo_vnull (q :: rest2) (by simp)] at hread
            cases hread
          | vbool b =>
            rw [getGo_plain_cons_nondict _ q rest2 hq (by intro h; cases h)
              (by intro dd h; cases h)] at hread
            cases hread
          | vint n =>
            rw [getGo_plain_cons_nondict _ q rest2 hq (by intro h; cases h)
              (by intro dd h; cases h)] at hread
            cases hread
          | vstr s =>
            rw [getGo_plain_cons_nondict _ q rest2 hq (by intro h; cases h)
              (by intro dd h; cases h)] at hread
            cases hread
          | vlist items =>
            rw [getGo_plain_cons_nondict _ q rest2 hq (by intro h; cases h)
              (by intro dd h; cases h)] at hread
            cases hread
        obtain ⟨sub', hwsub, hrsub⟩ := ih ud l (by simp) hrest hread
        refine ⟨dset cur p (Value.vdict sub'), ?_, ?_⟩
        · rw [writeGo_plain_step cur p q rest2 v hp, hlk]
          simp only [hwsub]
        · rw [getGo_plain_cons _ p (q :: rest2) hp]
          simp only [pyGet, dlookup_dset_self, Option.getD_some]
          exact hrsub

/-- **C8 (counterexample).**  The claim quantifies over *every* path whose
final segment currently holds a list, but an index-carrying final segment
*overwrites* instead of appending: with `\x7b"a": [["x"]]\x7d`, the path `a[0]`
currently holds the list `["x"]`, yet writing the scalar `"y"` replaces it,
leaving `\x7b"a": ["y"]\x7d` rather than `\x7b"a": [["x", "y"]]\x7d`. -/
theorem write_index_overwrites_ce :
    getNestedValue (Value.vdict [("a", Value.vlist [Value.vlist [Value.vstr "x"]])])
      "a[0]" = some (Value.vlist [Value.vstr "x"]) ∧
    write [("a", Value.vlist [Value.vlist [Value.vstr "x"]])] (some "a[0]")
      (Value.vstr "y") = some [("a", Value.vlist [Value.vstr "y"])] ∧
    getNestedValue (Value.vdict [("a", Value.vlist [Value.vstr "y"])]) "a[0]" =
      some (Value.vstr "y") ∧
    some (Value.vstr "y") ≠ some (Value.vlist [Value.vstr "x", Value.vstr "y"]) := by
  refine ⟨by rfl, by rfl, by rfl, by decide⟩

/-- **C8 (amended).**  For every slots mapping, every *plain* path (each
dot-segment bracket-free) whose current value is a list, and every non-list
value: `SlotWriter.write` appends the value to that list rather than
replacing it, so the list grows by exactly one element per write. -/
theorem write_appends_to_existing_list (d : Dict) (path : String) (v : Value)
    (l : List Value)
    (hne : path ≠ "")
    (hplain : allPlain (splitDot path) = true)
    (hcur : getGo (Value.vdict d) (splitDot path) = some (Value.vlist l))
    (hv : isListV v = false) :
    ∃ d', write d (some path) v = some d' ∧
      getGo (Value.vdict d') (splitDot path) = some (Value.vlist (l ++ [v])) ∧
      (l ++ [v]).length = l.length + 1 := by
  obtain ⟨cur', hw, hr⟩ := writeGo_plain_append v hv (splitDot path) d l
    (splitDot_ne_nil path) hplain hcur
  refine ⟨cur', ?_, hr, by simp⟩
  rw [write, if_neg hne, hw]

/-- Witness for C8: appending `"y"` to the list at `list.items` (currently
`["x"]`) grows it to `["x", "y"]`. -/
theorem write_appends_to_existing_list_witness :
    ∃ d', write [("list", Value.vdict [("items", Value.vlist [Value.vstr "x"])])]
        (some "list.items") (Value.vstr "y") = some d' ∧
      getGo (Value.vdict d') (splitDot "list.items") =
        some (Value.vlist [Value.vstr "x", Value.vstr "y"]) ∧
      ([Value.vstr "x"] ++ [Value.vstr "y"]).length = [Value.vstr "x"].length + 1 :=
  write_appends_to_existing_list [("list", Value.vdict [("items", Value.vlist [Value.vstr "x"])])]
    "list.items" (Value.vstr "y") [Value.vstr "x"]
    (by decide) (by rfl) (by rfl) (by rfl)

end QuickScope
